import Mathlib

/-!
Verification of the PO-data-processor SKU-table parser and cross-document
merge (source: Applications/po-data-processor/js/converter.js).

The JavaScript source is shallowly embedded: lines are Lean Strings, the
regular expressions of the source are modelled by explicit character-list
matchers, the strategy loops become fuel-indexed recursions (the fuel is
always at least the number of lines, and every loop step advances the line
index, so the fuel never runs out on real inputs), and the numeric fields
that JavaScript stores as numbers are stored as their decimal strings
(Strategy 1 quantities are in the range 1..9999, so truthiness of the
JavaScript number and nonemptiness of the string coincide).
-/

/-- The whitespace class of the JavaScript escapes used by the source. -/
def isWsChar (c : Char) : Bool :=
  c = ' ' || c = '\t' || c = '\n' || c = '\r' || c = '\x0b' || c = '\x0c'

/-- Kernel-computable model of the JavaScript trim: drop leading and
trailing whitespace. -/
def trimChars (l : List Char) : List Char :=
  ((l.dropWhile isWsChar).reverse.dropWhile isWsChar).reverse

def String.jsTrim (s : String) : String := String.mk (trimChars s.data)

namespace TK

/-! ### Character and string helpers -/

def isUpperAZ (c : Char) : Bool := 'A' ≤ c && c ≤ 'Z'

def isAsciiLetter (c : Char) : Bool := ('A' ≤ c && c ≤ 'Z') || ('a' ≤ c && c ≤ 'z')

def isWordChar (c : Char) : Bool := isAsciiLetter c || c.isDigit || c = '_'

def isDigitComma (c : Char) : Bool := c.isDigit || c = ','

def lowerList (l : List Char) : List Char := l.map Char.toLower

def upperStr (s : String) : String := String.mk (s.data.map Char.toUpper)

/-- Does the text start with the pattern (first argument is the pattern)? -/
def listStarts : List Char → List Char → Bool
  | [], _ => true
  | _ :: _, [] => false
  | p :: ps, c :: cs => p = c && listStarts ps cs

/-- Substring containment on character lists (text, pattern). -/
def listContains : List Char → List Char → Bool
  | [], pat => pat.isEmpty
  | c :: rest, pat => listStarts pat (c :: rest) || listContains rest pat

/-- Substring containment on strings, case sensitive: hay contains pat. -/
def containsSub (hay pat : String) : Bool := listContains hay.data pat.data

/-- Case-insensitive prefix test: s starts with pat (pat given in lower case). -/
def startsWithCI (s pat : String) : Bool :=
  listStarts pat.data (lowerList s.data)

/-- Numeric value of a digit list (the JavaScript parseInt of an all-digit string). -/
def digitsVal (l : List Char) : Nat :=
  l.foldl (fun acc c => acc * 10 + (c.toNat - '0'.toNat)) 0

/-- JavaScript parseInt on a string: skip leading whitespace, read leading
digits; none means NaN. Signs never occur at the modelled call sites. -/
def jsParseInt (s : String) : Option Nat :=
  let d := (s.data.dropWhile isWsChar).takeWhile Char.isDigit
  if d.isEmpty then none else some (digitsVal d)

/-- JavaScript split on the line separator. The source splits on an optional
CR followed by LF and then trims every line; splitting on LF alone and
trimming gives the same line list because a CR directly before an LF ends up
at the end of its line and is removed by the trim. -/
def splitNlAux : List Char → List Char → List String
  | [], cur => [String.mk cur.reverse]
  | c :: rest, cur =>
    if c = '\n' then String.mk cur.reverse :: splitNlAux rest []
    else splitNlAux rest (c :: cur)

def splitNl (s : String) : List String := splitNlAux s.data []

/-- The trimmed line list the parser works on (source lines 264-266). -/
def linesOf (s : String) : List String := (splitNl s).map String.jsTrim

theorem dropWhileLenLe (p : Char → Bool) : ∀ l : List Char, (l.dropWhile p).length ≤ l.length
  | [] => by simp [List.dropWhile]
  | c :: rest => by
    simp only [List.dropWhile]
    split
    · exact Nat.le_succ_of_le (dropWhileLenLe p rest)
    · simp

/-- Collapse every whitespace run into a single space, as the composition of
the two replace calls at source line 414 does. Every step consumes at least
one character, so fuel equal to the length of the list is always enough. -/
def collapseWsAux : Nat → List Char → List Char
  | 0, _ => []
  | _ + 1, [] => []
  | fuel + 1, c :: rest =>
    if isWsChar c then
      ' ' :: collapseWsAux fuel (rest.dropWhile isWsChar)
    else c :: collapseWsAux fuel rest

def collapseWs (s : String) : String :=
  String.mk (collapseWsAux s.data.length s.data)

/-- Split on whitespace runs keeping nonempty tokens, as split followed by a
truthiness filter does in the source. -/
def splitWsTokens (s : String) : List String :=
  (s.data.splitOnP isWsChar).map String.mk |>.filter (· ≠ "")

/-- Strip a leading run of dots, dashes and whitespace. -/
def stripDotDashWs (s : String) : String :=
  String.mk (s.data.dropWhile (fun c => c = '.' || c = '-' || isWsChar c))

/-- The JavaScript logical-or on strings: empty is falsy. -/
def jsOr (a b : String) : String := if a = "" then b else a

/-- First index at or after the start position where pat occurs in hay. -/
def indexOfFromAux : Nat → List Char → List Char → Nat → Option Nat
  | 0, _, _, _ => none
  | _ + 1, [], pat, i => if pat.isEmpty then some i else none
  | fuel + 1, c :: rest, pat, i =>
    if listStarts pat (c :: rest) then some i
    else indexOfFromAux fuel rest pat (i + 1)

def indexOfFrom (hay pat : List Char) (start : Nat) : Option Nat :=
  match indexOfFromAux (hay.length + 1) (hay.drop start) pat 0 with
  | some k => some (start + k)
  | none => none

/-! ### Shape tests modelling the regular expressions of the source -/

/-- Test for an exact 8-9 digit line (the bare SKU shape). -/
def exact89 (s : String) : Bool :=
  (s.data.length = 8 || s.data.length = 9) && s.data.all Char.isDigit

/-- Test for a string starting with at least 8 digits. -/
def ge8dStart (s : String) : Bool :=
  (s.data.take 8).length = 8 && (s.data.take 8).all Char.isDigit

/-- Test for an optional capital letter, optional whitespace, then 8-9 digits
(the row-start shape shared by Strategies 2, 3 and 4). -/
def skuStartTest (s : String) : Bool :=
  let rest :=
    match s.data with
    | c :: r => if isUpperAZ c then r else s.data
    | [] => []
  let r := (rest.dropWhile isWsChar).take 8
  r.length = 8 && r.all Char.isDigit

/-- The UPC line test of Strategy 1: a upc: label or a bare 12-14 digit run. -/
def isUpcLine (s : String) : Bool :=
  startsWithCI s "upc:" ||
  ((s.data.length = 12 || s.data.length = 13 || s.data.length = 14) &&
    s.data.all Char.isDigit)

/-- The full-line price test of Strategy 1: dollar, digits or commas, dot,
exactly two digits, end of line. -/
def isPriceExact (s : String) : Bool :=
  match s.data with
  | '$' :: rest =>
    let run := rest.takeWhile isDigitComma
    (!run.isEmpty) &&
      (match rest.dropWhile isDigitComma with
       | ['.', d1, d2] => d1.isDigit && d2.isDigit
       | _ => false)
  | _ => false

/-- The small-quantity test of Strategy 1: an all-digit line between 1 and 9999. -/
def isSmallQty (s : String) : Bool :=
  (!s.data.isEmpty) && s.data.all Char.isDigit &&
    (1 ≤ digitsVal s.data && digitsVal s.data ≤ 9999)

/-- A single capital letter line (a pack letter). -/
def isPackLetter (s : String) : Bool :=
  match s.data with
  | [c] => isUpperAZ c
  | _ => false

/-- Case-insensitive literal match that steps over the pattern, returning the
remainder of the text. The pattern is given in lower case. -/
def eatLitCI : List Char → List Char → Option (List Char)
  | [], t => some t
  | _ :: _, [] => none
  | p :: ps, c :: cs => if p = c.toLower then eatLitCI ps cs else none

/-- Require at least one whitespace character and step over the run. -/
def eatWs1 : List Char → Option (List Char)
  | c :: rest => if isWsChar c then some (rest.dropWhile isWsChar) else none
  | [] => none

/-- Require at least one digit; return the digit run and the remainder. -/
def eatDigits1 (l : List Char) : Option (List Char × List Char) :=
  let run := l.takeWhile Char.isDigit
  if run.isEmpty then none else some (run, l.dropWhile Char.isDigit)

/-- The bare number-of-packs stop line (anchored, optional trailing space). -/
def numberOfPacksBare (s : String) : Bool :=
  match eatLitCI "number".data s.data with
  | none => false
  | some r1 =>
    match eatWs1 r1 with
    | none => false
    | some r2 =>
      match eatLitCI "of".data r2 with
      | none => false
      | some r3 =>
        match eatWs1 r3 with
        | none => false
        | some r4 =>
          match eatLitCI "packs".data r4 with
          | none => false
          | some r5 => (r5.dropWhile isWsChar).isEmpty

/-- Start-anchored number-of-packs test (no trailing anchor). -/
def numberOfPacksStart (s : String) : Bool :=
  (match eatLitCI "number".data s.data with
   | none => none
   | some r1 =>
     match eatWs1 r1 with
     | none => none
     | some r2 =>
       match eatLitCI "of".data r2 with
       | none => none
       | some r3 =>
         match eatWs1 r3 with
         | none => none
         | some r4 => eatLitCI "packs".data r4).isSome

/-- Start-anchored number-of-packs-ordered: test. -/
def numberOfPacksOrderedStart (s : String) : Bool :=
  (match eatLitCI "number".data s.data with
   | none => none
   | some r1 =>
     match eatWs1 r1 with
     | none => none
     | some r2 =>
       match eatLitCI "of".data r2 with
       | none => none
       | some r3 =>
         match eatWs1 r3 with
         | none => none
         | some r4 =>
           match eatLitCI "packs".data r4 with
           | none => none
           | some r5 =>
             match eatWs1 r5 with
             | none => none
             | some r6 => eatLitCI "ordered:".data r6).isSome

/-- Start-anchored total cost or total qty label test. -/
def totalCostQtyStart (s : String) : Bool :=
  (match eatLitCI "total".data s.data with
   | none => none
   | some r1 =>
     match eatWs1 r1 with
     | none => none
     | some r2 =>
       match eatLitCI "cost".data r2 with
       | some r => some r
       | none => eatLitCI "qty".data r2).isSome

/-- Start-anchored total cost, qty or pack label test (Strategy 4 variant). -/
def totalCostQtyPackStart (s : String) : Bool :=
  (match eatLitCI "total".data s.data with
   | none => none
   | some r1 =>
     match eatWs1 r1 with
     | none => none
     | some r2 =>
       match eatLitCI "cost".data r2 with
       | some r => some r
       | none =>
         match eatLitCI "qty".data r2 with
         | some r => some r
         | none => eatLitCI "pack".data r2).isSome

/-- Start-anchored total-pack-followed-by-space test (Strategy 4 skip). -/
def totalPackSpStart (s : String) : Bool :=
  (match eatLitCI "total".data s.data with
   | none => none
   | some r1 =>
     match eatWs1 r1 with
     | none => none
     | some r2 =>
       match eatLitCI "pack".data r2 with
       | none => none
       | some r3 => eatWs1 r3).isSome

/-- Start-anchored Pack-SKU test of Strategy 4 (optional space between). -/
def packSkuStart (s : String) : Bool :=
  (match eatLitCI "pack".data s.data with
   | none => none
   | some r1 => eatLitCI "sku".data (r1.dropWhile isWsChar)).isSome

/-- Start-anchored no.-of-word-packs test of Strategy 4. -/
def noOfWordPacksStart (s : String) : Bool :=
  (match eatLitCI "no.".data s.data with
   | none => none
   | some r1 =>
     match eatWs1 r1 with
     | none => none
     | some r2 =>
       match eatLitCI "of".data r2 with
       | none => none
       | some r3 =>
         match eatWs1 r3 with
         | none => none
         | some r4 =>
           let run := r4.takeWhile isWordChar
           if run.isEmpty then none
           else
             match eatWs1 (r4.dropWhile isWordChar) with
             | none => none
             | some r5 => eatLitCI "packs".data r5).isSome

/-- Anchored no.-of-word-packs-ordered:-then-end test (Strategies 3 and 4). -/
def noOfWordPacksOrderedEnd (s : String) : Bool :=
  (match eatLitCI "no.".data s.data with
   | none => none
   | some r1 =>
     match eatWs1 r1 with
     | none => none
     | some r2 =>
       match eatLitCI "of".data r2 with
       | none => none
       | some r3 =>
         match eatWs1 r3 with
         | none => none
         | some r4 =>
           let run := r4.takeWhile isWordChar
           if run.isEmpty then none
           else
             match eatWs1 (r4.dropWhile isWordChar) with
             | none => none
             | some r5 =>
               match eatLitCI "packs".data r5 with
               | none => none
               | some r6 =>
                 match eatWs1 r6 with
                 | none => none
                 | some r7 =>
                   match eatLitCI "ordered:".data r7 with
                   | none => none
                   | some r8 =>
                     if (r8.dropWhile isWsChar).isEmpty then some ([] : List Char) else none).isSome

/-- Anchored ordered:-then-end test. -/
def orderedColonEnd (s : String) : Bool :=
  (match eatLitCI "ordered:".data s.data with
   | none => none
   | some r => if (r.dropWhile isWsChar).isEmpty then some ([] : List Char) else none).isSome

/-- Line ends with units: followed by optional whitespace. -/
def unitsColonEnd (s : String) : Bool :=
  let t := (s.data.reverse.dropWhile isWsChar).reverse
  listStarts "units:".data (lowerList (t.drop (t.length - 6))) && 6 ≤ t.length

/-- Does the string contain a dollar sign immediately followed by a digit? -/
def containsDollarDigitAux : List Char → Bool
  | '$' :: d :: rest => d.isDigit || containsDollarDigitAux (d :: rest)
  | _ :: rest => containsDollarDigitAux rest
  | [] => false

def containsDollarDigit (s : String) : Bool := containsDollarDigitAux s.data

/-- All-digit nonempty string test. -/
def allDigits (s : String) : Bool := (!s.data.isEmpty) && s.data.all Char.isDigit

/-- All-digit string with a length between the two bounds (inclusive). -/
def digitsLenBetween (s : String) (a b : Nat) : Bool :=
  allDigits s && a ≤ s.data.length && s.data.length ≤ b

/-! ### SKU row match and price scanning -/

/-- The row match of Strategies 2, 3 and 4: optional capital letter and
whitespace (group 1), 8-9 digits taken greedily (group 2), remainder
(group 3). -/
def matchSkuLine (s : String) : Option (String × String × String) :=
  let pRest :=
    match s.data with
    | c :: r => if isUpperAZ c then ([c], r) else (([] : List Char), s.data)
    | [] => (([] : List Char), ([] : List Char))
  let sp := pRest.2.takeWhile isWsChar
  let rest := pRest.2.dropWhile isWsChar
  let run := rest.takeWhile Char.isDigit
  if 8 ≤ run.length then
    let k := if 9 ≤ run.length then 9 else 8
    some (String.mk (pRest.1 ++ sp), String.mk (run.take k), String.mk (rest.drop k))
  else none

/-- Price match at the current position: dollar, a nonempty digit-or-comma
run, a dot, then one or two digits taken greedily. -/
def priceAtPos (l : List Char) : Option (List Char) :=
  match l with
  | '$' :: rest =>
    let run := rest.takeWhile isDigitComma
    if run.isEmpty then none
    else
      match rest.dropWhile isDigitComma with
      | '.' :: d1 :: tail =>
        if d1.isDigit then
          match tail with
          | d2 :: _ =>
            if d2.isDigit then some ('$' :: run ++ '.' :: [d1, d2])
            else some ('$' :: run ++ ['.', d1])
          | [] => some ('$' :: run ++ ['.', d1])
        else none
      | _ => none
  | _ => none

/-- Global scan for price matches, leftmost first, non-overlapping,
returning start positions and matched texts. -/
def scanPricesAux : Nat → List Char → Nat → List (Nat × List Char)
  | 0, _, _ => []
  | fuel + 1, l, i =>
    match l with
    | [] => []
    | _ :: rest =>
      match priceAtPos l with
      | some m => (i, m) :: scanPricesAux fuel (l.drop m.length) (i + m.length)
      | none => scanPricesAux fuel rest (i + 1)

def scanPrices (l : List Char) : List (Nat × List Char) := scanPricesAux (l.length + 1) l 0

/-- The list of matched price strings of a text. -/
def pricesOf (s : String) : List String := (scanPrices s.data).map (fun p => String.mk p.2)

/-- JavaScript split on every dot. -/
def splitDotAux : List Char → List Char → List (List Char)
  | [], cur => [cur.reverse]
  | c :: rest, cur =>
    if c = '.' then cur.reverse :: splitDotAux rest []
    else splitDotAux rest (c :: cur)

/-- Price normalization (source lines 700-706 and the guarded variants at
421, 868 and 1101, which agree on every price-shaped input): split on the
dot; a one-digit fraction is padded with a trailing zero. -/
def normalizePrice (p : String) : String :=
  match splitDotAux p.data [] with
  | a :: b :: _ => if b.length = 1 then String.mk (a ++ '.' :: b ++ ['0']) else p
  | _ => p

/-- End position of the last price match, computed with repeated indexOf
exactly as the source does (lines 469-473 and 881-887). -/
def lastPriceEnd (rem : List Char) (ps : List String) : Nat :=
  ps.foldl
    (fun acc p =>
      match indexOfFrom rem p.data acc with
      | some ix => ix + p.data.length
      | none => acc)
    0

/-! ### Color and size matchers -/

/-- The color vocabulary, in the alternation order of the source regex. -/
def colorNames : List String :=
  ["White", "Black", "Red", "Blue", "Green", "Yellow", "Grey", "Gray", "Pink",
   "Brown", "Purple", "Navy", "Silver", "Gold", "Orange", "Multi", "Ivory",
   "Cream", "Beige", "Khaki", "Tan", "Bone", "Natural", "Royal", "Teal",
   "Turquoise", "Maroon", "Olive", "Charcoal", "Burgundy", "No Color"]

/-- Case-insensitive prefix comparison on character lists. -/
def ciStarts : List Char → List Char → Bool
  | [], _ => true
  | _ :: _, [] => false
  | p :: ps, c :: cs => p.toLower = c.toLower && ciStarts ps cs

/-- First color alternative matching at the current position; the matched
text keeps the case of the scanned string. -/
def colorAtPos (l : List Char) : Option (List Char) :=
  match colorNames.find? (fun n => ciStarts n.data l) with
  | some n => some (l.take n.data.length)
  | none => none

def findColorAux : Nat → List Char → Nat → Option (Nat × List Char)
  | 0, _, _ => none
  | fuel + 1, l, i =>
    match colorAtPos l with
    | some m => some (i, m)
    | none =>
      match l with
      | [] => none
      | _ :: rest => findColorAux fuel rest (i + 1)

/-- Leftmost color match: index and matched text. -/
def findColor (s : String) : Option (Nat × String) :=
  (findColorAux (s.data.length + 1) s.data 0).map (fun p => (p.1, String.mk p.2))

def isXChar (c : Char) : Bool := c = 'X' || c = 'x'

/-- Anchored size alternation of Strategies 2 (inline) and 3: three
dimensions, two dimensions, or a bare dot, in that order. -/
def sizeDimsAt (l : List Char) : Option (List Char) :=
  let d1 := l.takeWhile Char.isDigit
  if d1.isEmpty then
    match l with
    | '.' :: _ => some ['.']
    | _ => none
  else
    match l.drop d1.length with
    | x1 :: rest1 =>
      if isXChar x1 then
        let d2 := rest1.takeWhile Char.isDigit
        if d2.isEmpty then none
        else
          match rest1.drop d2.length with
          | x2 :: rest2 =>
            if isXChar x2 then
              let d3 := rest2.takeWhile Char.isDigit
              if d3.isEmpty then some (d1 ++ x1 :: d2)
              else some (d1 ++ x1 :: d2 ++ x2 :: d3)
            else some (d1 ++ x1 :: d2)
          | [] => some (d1 ++ x1 :: d2)
      else none
    | [] => none

def isLetterWs (c : Char) : Bool := isAsciiLetter c || isWsChar c

/-- Greedy match of the word-size pattern of the Strategy 2 inline branch:
the longest letter-and-space prefix ending in the word size and followed by
at least one space. Returns the group and the prefix length of the whole
match (group plus trailing whitespace run). -/
def wordSizeOkAt (l : List Char) (k : Nat) : Bool :=
  (l.take k).all isLetterWs &&
    lowerList ((l.drop k).take 4) = "size".data &&
    ((l.drop k).take 4).length = 4 &&
    (eatWs1 (l.drop (k + 4))).isSome

def wordSizeFindAux (l : List Char) : Nat → Option Nat
  | 0 => if wordSizeOkAt l 0 then some 0 else none
  | k + 1 => if wordSizeOkAt l (k + 1) then some (k + 1) else wordSizeFindAux l k

def wordSizeMatch (s : String) : Option (String × String) :=
  match wordSizeFindAux s.data s.data.length with
  | some k =>
    some (String.mk (s.data.take (k + 4)),
          String.mk ((s.data.drop (k + 4)).dropWhile isWsChar))
  | none => none

/-- Leading pack-quantity number of the Strategy 2/3 left parser: a decimal
number followed by whitespace, accepted when its value is between 1 and 99,
rounded half-up. Returns the rounded value and the remaining working text. -/
def leadPackQtyDec (s : String) : Option (String × String) :=
  let l := s.data
  let a := l.takeWhile Char.isDigit
  if a.isEmpty then none
  else
    let r1 := l.drop a.length
    let bRest : Option (List Char × List Char) :=
      match r1 with
      | '.' :: r2 =>
        let b := r2.takeWhile Char.isDigit
        match eatWs1 (r2.drop b.length) with
        | some rest => some (b, rest)
        | none => none
      | _ =>
        match eatWs1 r1 with
        | some rest => some (([] : List Char), rest)
        | none => none
    match bRest with
    | none => none
    | some (b, rest) =>
      let aVal := digitsVal a
      if 1 ≤ aVal && (aVal ≤ 98 || (aVal = 99 && b.all (· = '0'))) then
        let rounded := aVal + (match b with | c :: _ => if '5' ≤ c then 1 else 0 | [] => 0)
        some (toString rounded, (String.mk rest).jsTrim)
      else none

/-! ### Right-side quantity parsing (shared by Strategy 2 inline and 3) -/

def qtySplitCand (digits : List Char) (pqLen : Nat) : Option (String × String × String) :=
  if pqLen < digits.length - 2 then
    let remaining := digits.drop pqLen
    let halfLen := remaining.length / 2
    if 2 ≤ halfLen then
      let pq := digits.take pqLen
      let tp := remaining.take halfLen
      let q := remaining.drop halfLen
      if 0 < digitsVal tp && 0 < digitsVal q then
        some (String.mk pq, String.mk tp, String.mk q)
      else none
    else none
  else none

/-- The parseQty helper of the Strategy 2 inline branch (lines 476-503) and
the parseQuantities helper of Strategy 3 (lines 817-845); the two source
functions are textually identical. Returns pack quantity, total packs and
quantity. -/
def parseQuantities (text : String) : String × String × String :=
  let parts := splitWsTokens text
  match parts with
  | p0 :: p1 :: p2 :: _ => (p0, p1, p2)
  | [p0, p1] => (p0, "", p1)
  | [p0] =>
    let digits := p0.data.filter Char.isDigit
    if 4 ≤ digits.length then
      match qtySplitCand digits 1 with
      | some r => r
      | none =>
        match qtySplitCand digits 2 with
        | some r => r
        | none => ("", "", String.mk digits)
    else ("", "", String.mk digits)
  | [] => ("", "", "")

/-! ### Number-of-packs label scanners -/

/-- Generic leftmost search of an anchored matcher over every suffix. -/
def scanFirst {α : Type} (f : List Char → Option α) : Nat → List Char → Option α
  | 0, _ => none
  | fuel + 1, l =>
    match f l with
    | some a => some a
    | none =>
      match l with
      | [] => none
      | _ :: rest => scanFirst f fuel rest

def searchSub {α : Type} (f : List Char → Option α) (s : String) : Option α :=
  scanFirst f (s.data.length + 1) s.data

/-- Matcher for number of packs ordered: N units: M, returning the two digit
groups (N, M) as strings. -/
def packsOrderedFullAt (l : List Char) : Option (String × String) := do
  let r1 ← eatLitCI "number".data l
  let r2 ← eatWs1 r1
  let r3 ← eatLitCI "of".data r2
  let r4 ← eatWs1 r3
  let r5 ← eatLitCI "packs".data r4
  let r6 ← eatWs1 r5
  let r7 ← eatLitCI "ordered:".data r6
  let (d1, r8) ← eatDigits1 (r7.dropWhile isWsChar)
  let r9 ← eatLitCI "units:".data (r8.dropWhile isWsChar)
  let (d2, _) ← eatDigits1 (r9.dropWhile isWsChar)
  pure (String.mk d1, String.mk d2)

def findPacksOrderedFull (s : String) : Option (String × String) :=
  searchSub packsOrderedFullAt s

/-- Matcher for number of packs ordered: units: M with an optional packs
count, returning the units digit group. -/
def packsOrderedUnitsAt (l : List Char) : Option String := do
  let r1 ← eatLitCI "number".data l
  let r2 ← eatWs1 r1
  let r3 ← eatLitCI "of".data r2
  let r4 ← eatWs1 r3
  let r5 ← eatLitCI "packs".data r4
  let r6 ← eatWs1 r5
  let r7 ← eatLitCI "ordered:".data r6
  let r8 := ((r7.dropWhile isWsChar).dropWhile Char.isDigit).dropWhile isWsChar
  let r9 ← eatLitCI "units:".data r8
  let (d, _) ← eatDigits1 (r9.dropWhile isWsChar)
  pure (String.mk d)

def findPacksOrderedUnits (s : String) : Option String :=
  searchSub packsOrderedUnitsAt s

/-- Search for ordered: followed by digits anywhere in the line. -/
def searchOrderedNum (s : String) : Option String :=
  searchSub
    (fun l => do
      let r ← eatLitCI "ordered:".data l
      let (d, _) ← eatDigits1 (r.dropWhile isWsChar)
      pure (String.mk d))
    s

/-- Search for units: followed by digits anywhere in the line. -/
def searchUnitsNum (s : String) : Option String :=
  searchSub
    (fun l => do
      let r ← eatLitCI "units:".data l
      let (d, _) ← eatDigits1 (r.dropWhile isWsChar)
      pure (String.mk d))
    s

/-- Search for the literally spaced Number Of Packs Ordered: label followed
by digits (Strategy 4, line 1039). -/
def searchPacksOrderedLit (s : String) : Option String :=
  searchSub
    (fun l => do
      let r ← eatLitCI "number of packs ordered:".data l
      let (d, _) ← eatDigits1 (r.dropWhile isWsChar)
      pure (String.mk d))
    s

/-- Leftmost run of 12 consecutive digits (the UPC capture of line 766). -/
def findDigits12 (s : String) : Option String :=
  searchSub
    (fun l =>
      let t := l.take 12
      if t.length = 12 && t.all Char.isDigit then some (String.mk t) else none)
    s

/-- Test for a price with a two-digit fraction directly followed by more
digits (the hasCompleteQty test of lines 660, 1055, 1066 and 1079). -/
def hasCompleteQty (s : String) : Bool :=
  (searchSub
    (fun l =>
      match l with
      | '$' :: rest =>
        let run := rest.takeWhile isDigitComma
        if run.isEmpty then none
        else
          match rest.dropWhile isDigitComma with
          | '.' :: d1 :: d2 :: d3 :: _ =>
            if d1.isDigit && d2.isDigit && d3.isDigit then some () else none
          | _ => none
      | _ => none)
    s).isSome

/-! ### Global replace helpers for glued price runs -/

/-- Global replace runner: the matcher returns replacement text and consumed
length; matching is leftmost and non-overlapping, as in JavaScript. -/
def replaceAll (f : List Char → Option (List Char × Nat)) : Nat → List Char → List Char
  | 0, l => l
  | fuel + 1, l =>
    match f l with
    | some (rep, n) => rep ++ replaceAll f fuel (l.drop n)
    | none =>
      match l with
      | [] => []
      | c :: rest => c :: replaceAll f fuel rest

/-- First replace of line 694: a space is put between a glued second
fraction digit and a following dollar sign. -/
def s2FixAAt (l : List Char) : Option (List Char × Nat) :=
  match l with
  | '$' :: rest =>
    let run := rest.takeWhile Char.isDigit
    if run.isEmpty then none
    else
      match rest.drop run.length with
      | '.' :: d1 :: d2 :: '$' :: _ =>
        if d1.isDigit && d2.isDigit then
          some ('$' :: run ++ '.' :: d1 :: d2 :: ' ' :: ['$'], run.length + 5)
        else none
      | _ => none
  | _ => none

/-- Second replace of line 695: a space is put before a third digit after
the fraction. -/
def s2FixBAt (l : List Char) : Option (List Char × Nat) :=
  match l with
  | '$' :: rest =>
    let run := rest.takeWhile Char.isDigit
    if run.isEmpty then none
    else
      match rest.drop run.length with
      | '.' :: d1 :: d2 :: d3 :: _ =>
        if d1.isDigit && d2.isDigit && d3.isDigit then
          some ('$' :: run ++ '.' :: d1 :: d2 :: ' ' :: [d3], run.length + 5)
        else none
      | _ => none
  | _ => none

def s2FixPriceText (s : String) : String :=
  let l1 := replaceAll s2FixAAt (s.data.length + 1) s.data
  String.mk (replaceAll s2FixBAt (l1.length + 1) l1)

/-- The Strategy 4 replace of line 1097: a space is appended after a
complete two-decimal price when the next character is neither a dot nor a
digit (or the text ends); the lookahead character is not consumed. -/
def s4FixAt (l : List Char) : Option (List Char × Nat) :=
  match l with
  | '$' :: rest =>
    let run := rest.takeWhile isDigitComma
    if run.isEmpty then none
    else
      match rest.dropWhile isDigitComma with
      | '.' :: d1 :: d2 :: tail =>
        if d1.isDigit && d2.isDigit &&
           (match tail with
            | [] => true
            | c :: _ => !(c = '.' || c.isDigit)) then
          some ('$' :: run ++ '.' :: d1 :: d2 :: [' '], run.length + 4)
        else none
      | _ => none
  | _ => none

def s4FixPriceText (s : String) : String :=
  String.mk (replaceAll s4FixAt (s.data.length + 1) s.data)

/-- Replace the first occurrence of pat by a single space. -/
def replaceFirstBySpace (hay pat : List Char) : List Char :=
  match indexOfFrom hay pat 0 with
  | some ix => hay.take ix ++ ' ' :: hay.drop (ix + pat.length)
  | none => hay

/-- Remove every matched price from the text, first occurrence each, then
keep only digits (the afterPrices and qtyDigits computation). -/
def qtyDigitsAfterPrices (text : String) (ps : List String) : List Char :=
  (ps.foldl (fun acc p => replaceFirstBySpace acc p.data) text.data).filter Char.isDigit

/-! ### The line-item record -/

/-- The parser output unit. The JavaScript objects of Strategies 1, 3 and 4
carry no Comp or UPC keys (or no Comp key); a missing key is modelled by the
empty string, which is observationally equal for the downstream filter and
merge, which read absent keys as falsy. -/
structure Item where
  sku : String
  mfgStyle : String
  mfgColor : String
  sizeDesc : String
  descText : String
  costUnit : String
  comp : String
  retail : String
  packQty : String
  qty : String
  upc : String
deriving DecidableEq, Repr

/-! ### Header locator (source lines 270-284) -/

def joinSp (l : List String) : String := String.intercalate " " l

/-- The header condition at the current scan position: the line contains SKU
(upper-cased) and the window of this line and the next five, joined with
spaces, contains MFG and STYLE. -/
def headerCondList (lines : List String) : Bool :=
  match lines with
  | [] => false
  | l :: _ =>
    containsSub (upperStr l) "SKU" &&
      (containsSub (upperStr (joinSp (lines.take 6))) "MFG" &&
       containsSub (upperStr (joinSp (lines.take 6))) "STYLE")

def findHeaderIdxAux : List String → Nat → Option Nat
  | [], _ => none
  | l :: rest, i =>
    if headerCondList (l :: rest) then some i else findHeaderIdxAux rest (i + 1)

def findHeaderIdx (lines : List String) : Option Nat := findHeaderIdxAux lines 0

/-! ### Strategy 1: stacked fields (source lines 287-388) -/

/-- The first line strictly after the header matching the bare SKU shape. -/
def findFirstSkuAux : List String → Nat → Nat → Option Nat
  | [], _, _ => none
  | l :: rest, i, hIdx =>
    if decide (hIdx < i) && exact89 l then some i
    else findFirstSkuAux rest (i + 1) hIdx

def findFirstSku (lines : List String) (hIdx : Nat) : Option Nat :=
  findFirstSkuAux lines 0 hIdx

structure S1Fields where
  style : String := ""
  color : String := ""
  size : String := ""
  descr : String := ""
deriving DecidableEq, Repr

structure S1ScanRes where
  fields : S1Fields
  prices : List String
  qtys : List Nat
  next : Nat
deriving Repr

/-- The inner scan of one stacked item: classify following lines as prices,
quantities or positional fields until a stop line. -/
def s1Inner (lines : List String) : Nat → Nat → Nat → S1Fields → List String → List Nat → S1ScanRes
  | 0, idx, _, f, ps, qs => ⟨f, ps, qs, idx⟩
  | fuel + 1, idx, stage, f, ps, qs =>
    if lines.length ≤ idx then ⟨f, ps, qs, idx⟩
    else
      let line := (lines.getD idx "").jsTrim
      if line = "" then s1Inner lines fuel (idx + 1) stage f ps qs
      else if exact89 line then ⟨f, ps, qs, idx⟩
      else if numberOfPacksOrderedStart line then ⟨f, ps, qs, idx + 1⟩
      else if numberOfPacksBare line then ⟨f, ps, qs, idx⟩
      else if totalCostQtyStart line then ⟨f, ps, qs, idx⟩
      else if startsWithCI line "page" then ⟨f, ps, qs, idx⟩
      else if isUpcLine line then s1Inner lines fuel (idx + 1) stage f ps qs
      else if isPriceExact line then s1Inner lines fuel (idx + 1) stage f (ps ++ [line]) qs
      else if (!ps.isEmpty) && isSmallQty line then
        s1Inner lines fuel (idx + 1) stage f ps (qs ++ [digitsVal line.data])
      else if ps.isEmpty then
        match stage with
        | 0 => s1Inner lines fuel (idx + 1) 1 { f with style := line } ps qs
        | 1 => s1Inner lines fuel (idx + 1) 2 { f with color := line } ps qs
        | 2 => s1Inner lines fuel (idx + 1) 3 { f with size := line } ps qs
        | _ =>
          s1Inner lines fuel (idx + 1) stage
            { f with descr := if f.descr ≠ "" then f.descr ++ " " ++ line else line } ps qs
      else s1Inner lines fuel (idx + 1) stage f ps qs

/-- The field assignment of Strategy 1 (source lines 373-384): the first
three prices become cost, comp and retail; the first quantity becomes the
pack quantity; the quantity is the third collected quantity when present,
else the second, else the first. -/
def s1Assign (sk : String) (f : S1Fields) (prices : List String) (qtys : List Nat) : Item :=
  { sku := sk
    mfgStyle := f.style
    mfgColor := f.color
    sizeDesc := f.size
    descText := f.descr
    costUnit := if 1 ≤ prices.length then prices.getD 0 "" else ""
    comp := if 2 ≤ prices.length then prices.getD 1 "" else ""
    retail := if 3 ≤ prices.length then prices.getD 2 "" else ""
    packQty := if 1 ≤ qtys.length then toString (qtys.getD 0 0) else ""
    qty :=
      if 3 ≤ qtys.length then toString (qtys.getD 2 0)
      else if qtys.length = 2 then toString (qtys.getD 1 0)
      else if qtys.length = 1 then toString (qtys.getD 0 0)
      else ""
    upc := "" }

def s1Loop (lines : List String) : Nat → Nat → List Item
  | 0, _ => []
  | fuel + 1, idx =>
    if lines.length ≤ idx then []
    else
      let skuLine := lines.getD idx ""
      if isPackLetter skuLine then s1Loop lines fuel (idx + 1)
      else if !exact89 skuLine then []
      else if numberOfPacksBare skuLine || totalCostQtyStart skuLine then []
      else
        let r := s1Inner lines (lines.length + 1) (idx + 1) 0 {} [] []
        s1Assign skuLine r.fields r.prices r.qtys :: s1Loop lines fuel r.next

def s1Run (lines : List String) (hIdx : Nat) : List Item :=
  match findFirstSku lines hIdx with
  | none => []
  | some fIdx => s1Loop lines (lines.length + 1) fIdx

/-! ### Loop step outcome and generic strategy runners -/

inductive StepRes where
  | stop : StepRes
  | skip (next : Nat) : StepRes
  | emit (it : Item) (next : Nat) : StepRes
deriving DecidableEq

def runStrat (body : Nat → StepRes) : Nat → Nat → List Item
  | 0, _ => []
  | fuel + 1, i =>
    match body i with
    | .stop => []
    | .skip n => runStrat body fuel n
    | .emit it n => it :: runStrat body fuel n

def runStratSeen (body : Nat → List String → StepRes) : Nat → Nat → List String → List Item
  | 0, _, _ => []
  | fuel + 1, i, seen =>
    match body i seen with
    | .stop => []
    | .skip n => runStratSeen body fuel n seen
    | .emit it n => it :: runStratSeen body fuel n (seen ++ [it.sku])

/-! ### Strategy 2: multi-line blocks (source lines 392-768) -/

/-- The forward look for a number-of-packs label in the next three lines of
the inline branch (source lines 509-542). Returns the pack quantity and the
quantity from the label, or empty strings. -/
def s2LookAhead (lines : List String) : Nat → Nat → Nat → String × String
  | 0, _, _ => ("", "")
  | fuel + 1, j, stop =>
    if stop ≤ j then ("", "")
    else
      let checkLine := lines.getD j ""
      if ge8dStart checkLine then ("", "")
      else if totalCostQtyStart checkLine then ("", "")
      else
        match findPacksOrderedFull checkLine with
        | some (d1, d2) => (d2, toString (digitsVal d1.data * digitsVal d2.data))
        | none =>
          match findPacksOrderedUnits checkLine with
          | some d => (d, "")
          | none =>
            if unitsColonEnd checkLine then
              let nextLine := (lines.getD (j + 1) "").jsTrim
              if digitsLenBetween nextLine 1 2 then
                match searchOrderedNum checkLine with
                | some d => (nextLine, toString (digitsVal d.data * digitsVal nextLine.data))
                | none => (nextLine, "")
              else ("", "")
            else s2LookAhead lines fuel (j + 1) stop

/-- The item of the Strategy 2 inline-price branch (source lines 418-561). -/
def s2InlineItem (lines : List String) (i : Nat) (sku remainder : String) : Item :=
  let allPrices := pricesOf remainder
  let nps := allPrices.map normalizePrice
  let firstIdx := match scanPrices remainder.data with | (ix, _) :: _ => ix | [] => 0
  let left := (String.mk (remainder.data.take firstIdx)).jsTrim
  let sc :=
    match findColor left with
    | some (ix, matched) =>
      ((String.mk (left.data.take ix)).jsTrim, matched,
       (String.mk (left.data.drop (ix + matched.data.length))).jsTrim)
    | none =>
      let firstToken := String.mk (left.data.takeWhile (fun c => !isWsChar c))
      (firstToken.jsTrim, "", (String.mk (left.data.drop firstToken.data.length)).jsTrim)
  let sz :=
    match sizeDimsAt sc.2.2.data with
    | some m => (String.mk m, (String.mk (sc.2.2.data.drop m.length)).jsTrim)
    | none =>
      match wordSizeMatch sc.2.2 with
      | some (g, rest) => (g.jsTrim, rest.jsTrim)
      | none => ("", sc.2.2)
  let pqw :=
    match leadPackQtyDec sz.2 with
    | some (pq, w) => (pq, w)
    | none => ("", sz.2)
  let descText := (stripDotDashWs pqw.2).jsTrim
  let lastEnd := lastPriceEnd remainder.data allPrices
  let right := (String.mk (remainder.data.drop lastEnd)).jsTrim
  let q := parseQuantities right
  let look := s2LookAhead lines 3 (i + 1) (min (i + 4) lines.length)
  { sku := sku
    mfgStyle := sc.1
    mfgColor := sc.2.1
    sizeDesc := sz.1
    descText := descText
    costUnit := nps.getD 0 ""
    comp := nps.getD 1 ""
    retail := nps.getD 2 ""
    packQty := jsOr look.1 (jsOr pqw.1 q.1)
    qty := jsOr look.2 q.2.2
    upc := "" }

/-! The four leading size and pack-quantity patterns of the deferred branch
(source lines 581-604). -/

def dotPqDotPat (s : String) : Option (String × String) :=
  match s.data with
  | '.' :: rest =>
    let d2 := rest.take 2
    if d2.length = 2 && d2.all Char.isDigit &&
       (match rest.drop 2 with | '.' :: _ => true | _ => false) then
      some (String.mk d2, String.mk (rest.drop 3))
    else
      let d1 := rest.take 1
      if d1.length = 1 && d1.all Char.isDigit &&
         (match rest.drop 1 with | '.' :: _ => true | _ => false) then
        some (String.mk d1, String.mk (rest.drop 2))
      else none
  | _ => none

def textSizePqPat (s : String) : Option (String × String × String) :=
  let L := s.data.takeWhile isLetterWs
  if L.isEmpty then none
  else
    let rest := s.data.drop L.length
    let r := rest.takeWhile Char.isDigit
    if (r.length = 1 || r.length = 2) &&
       (match rest.drop r.length with | '.' :: _ => true | _ => false) then
      some (String.mk L, String.mk r, String.mk (rest.drop (r.length + 1)))
    else none

def dotPqInlinePat (s : String) : Option (String × String) :=
  match s.data with
  | '.' :: d1 :: d2 :: c :: rest =>
    if d1.isDigit && d2.isDigit && isAsciiLetter c then
      some (String.mk [d1], String.mk (d2 :: c :: rest))
    else none
  | _ => none

def looksLikeSizePat (s : String) : Bool :=
  match s.data with
  | '.' :: rest =>
    let d1 := rest.takeWhile Char.isDigit
    (!d1.isEmpty) &&
      (match rest.drop d1.length with
       | x :: rest2 => isXChar x && !(rest2.takeWhile Char.isDigit).isEmpty
       | [] => false)
  | _ => false

/-- The unanchored size alternation of line 599: three dimensions, two
dimensions, a decimal number, or a digit run, tried at the leftmost digit. -/
def sizeAnyAt (l : List Char) : Option (List Char) :=
  let d1 := l.takeWhile Char.isDigit
  if d1.isEmpty then none
  else
    match l.drop d1.length with
    | x :: rest1 =>
      if isXChar x then
        let d2 := rest1.takeWhile Char.isDigit
        if d2.isEmpty then some d1
        else
          match rest1.drop d2.length with
          | x2 :: rest2 =>
            if isXChar x2 then
              let d3 := rest2.takeWhile Char.isDigit
              if d3.isEmpty then some (d1 ++ x :: d2) else some (d1 ++ x :: d2 ++ x2 :: d3)
            else some (d1 ++ x :: d2)
          | [] => some (d1 ++ x :: d2)
      else if x = '.' then
        let d2 := rest1.takeWhile Char.isDigit
        if d2.isEmpty then some d1 else some (d1 ++ '.' :: d2)
      else some d1
    | [] => some d1

def scanFirstIdx {α : Type} (f : List Char → Option α) : Nat → List Char → Nat → Option (Nat × α)
  | 0, _, _ => none
  | fuel + 1, l, i =>
    match f l with
    | some a => some (i, a)
    | none =>
      match l with
      | [] => none
      | _ :: rest => scanFirstIdx f fuel rest (i + 1)

def sizeAnySearch (s : String) : Option (Nat × List Char) :=
  scanFirstIdx sizeAnyAt (s.data.length + 1) s.data 0

/-- The scan state of the Strategy 2 deferred branch (source lines 607-690). -/
structure S2Scan where
  upcLine : String
  priceLine : String
  pqNL : String
  qtyNL : String
  descAcc : String
  iOver : Option Nat
deriving Repr

def s2ScanLoop (lines : List String) : Nat → Nat → Nat → String → String → String → S2Scan
  | 0, _, _, upc, price, de => ⟨upc, price, "", "", de, none⟩
  | fuel + 1, j, stop, upc, price, de =>
    if stop ≤ j then ⟨upc, price, "", "", de, none⟩
    else
      let checkLine := lines.getD j ""
      if ge8dStart checkLine then ⟨upc, price, "", "", de, none⟩
      else if totalCostQtyStart checkLine then ⟨upc, price, "", "", de, none⟩
      else
        match findPacksOrderedFull checkLine with
        | some (d1, d2) => ⟨upc, price, d2, toString (digitsVal d1.data * digitsVal d2.data), de, none⟩
        | none =>
        match findPacksOrderedUnits checkLine with
        | some d => ⟨upc, price, d, "", de, none⟩
        | none =>
        if unitsColonEnd checkLine then
          let nextLine := (lines.getD (j + 1) "").jsTrim
          if digitsLenBetween nextLine 1 2 then
            match searchOrderedNum checkLine with
            | some d => ⟨upc, price, nextLine, toString (digitsVal d.data * digitsVal nextLine.data), de, none⟩
            | none => ⟨upc, price, nextLine, "", de, none⟩
          else ⟨upc, price, "", "", de, none⟩
        else if numberOfPacksOrderedStart checkLine then ⟨upc, price, "", "", de, none⟩
        else if startsWithCI checkLine "upc:" then
          s2ScanLoop lines fuel (j + 1) stop checkLine price de
        else if containsDollarDigit checkLine then
          s2ScanLoop lines fuel (j + 1) stop upc (price ++ " " ++ checkLine) de
        else
          let headDigitDollarDot :=
            match checkLine.data with
            | c :: _ => c.isDigit || c = '$' || c = '.'
            | [] => false
          if price ≠ "" && headDigitDollarDot then
            let hc := hasCompleteQty price
            let stand := digitsLenBetween checkLine.jsTrim 2 4
            if !hc && !stand then s2ScanLoop lines fuel (j + 1) stop upc (price ++ checkLine) de
            else if hc && stand then ⟨upc, price, "", "", de, none⟩
            else s2ScanLoop lines fuel (j + 1) stop upc price de
          else if price ≠ "" && numberOfPacksStart checkLine then
            let pqU := searchUnitsNum checkLine
            let tpO := searchOrderedNum checkLine
            let qtyNL :=
              match pqU, tpO with
              | some u, some t => toString (digitsVal t.data * digitsVal u.data)
              | _, _ => ""
            ⟨upc, price, pqU.getD "", qtyNL, de, some (j - 1)⟩
          else if upc = "" && price = "" && checkLine ≠ "" && !(startsWithCI checkLine "upc:") then
            s2ScanLoop lines fuel (j + 1) stop upc price (de ++ " " ++ checkLine.jsTrim)
          else s2ScanLoop lines fuel (j + 1) stop upc price de

/-- The quantity split heuristic of the deferred branch (lines 716-750). -/
def s2SplitQtyDigits (digits : List Char) : String × String :=
  if 4 ≤ digits.length then
    let pq1 := digitsVal (digits.take 1)
    let rest1 := digits.drop 1
    let half1 := rest1.length / 2
    let tp1 := digitsVal (rest1.take half1)
    let tu1 := digitsVal (rest1.drop half1)
    if tu1 = tp1 * pq1 && 0 < pq1 && pq1 ≤ 12 then (toString pq1, toString tu1)
    else
      let pq2 := digitsVal (digits.take 2)
      let rest2 := digits.drop 2
      if 2 ≤ rest2.length then
        let half2 := rest2.length / 2
        let tp2 := digitsVal (rest2.take half2)
        let tu2 := digitsVal (rest2.drop half2)
        if tu2 = tp2 * pq2 && 0 < pq2 && pq2 ≤ 24 then (toString pq2, toString tu2)
        else ("", String.mk (digits.drop (digits.length / 2)))
      else ("", String.mk digits)
  else if digits.length ≠ 0 then ("", String.mk digits)
  else ("", "")

/-- The Strategy 2 deferred-price branch (source lines 564-767). -/
def s2Deferred (lines : List String) (i : Nat) (sku remainder0 : String) : StepRes :=
  let sc :=
    match findColor remainder0 with
    | some (ix, matched) =>
      ((String.mk (remainder0.data.take ix)).jsTrim, matched,
       String.mk (remainder0.data.drop (ix + matched.data.length)))
    | none =>
      let firstToken := String.mk (remainder0.data.takeWhile (fun c => !isWsChar c))
      (firstToken.jsTrim, "", String.mk (remainder0.data.drop firstToken.data.length))
  let rem1 := sc.2.2
  let szp :=
    match dotPqDotPat rem1 with
    | some (pq, r) => (".", pq, r)
    | none =>
      match textSizePqPat rem1 with
      | some (l, pq, r) => (l.jsTrim, pq, r)
      | none =>
        if (dotPqInlinePat rem1).isSome && !looksLikeSizePat rem1 then
          match dotPqInlinePat rem1 with
          | some (pq, r) => (".", pq, r)
          | none => ("", "", rem1)
        else
          match sizeAnySearch rem1 with
          | some (ix, m) => (String.mk m, "", String.mk (rem1.data.drop (ix + m.length)))
          | none => ("", "", rem1)
  let desc0 := (stripDotDashWs szp.2.2).jsTrim
  let scan := s2ScanLoop lines (lines.length + 1) (i + 1) (min (i + 10) lines.length) "" "" desc0
  let nextI := (scan.iOver.getD i) + 1
  let priceText := s2FixPriceText scan.priceLine.jsTrim
  let priceMatches := pricesOf priceText
  if priceMatches.isEmpty then .skip nextI
  else
    let nps := priceMatches.map normalizePrice
    let pqQty := s2SplitQtyDigits (qtyDigitsAfterPrices priceText priceMatches)
    .emit
      { sku := sku
        mfgStyle := sc.1
        mfgColor := sc.2.1
        sizeDesc := szp.1
        descText := scan.descAcc.jsTrim
        costUnit := nps.getD 0 ""
        comp := nps.getD 1 ""
        retail := nps.getD 2 ""
        packQty := jsOr szp.2.1 (jsOr scan.pqNL pqQty.1)
        qty := jsOr scan.qtyNL pqQty.2
        upc := (findDigits12 scan.upcLine).getD "" }
      nextI

def s2Body (lines : List String) (i : Nat) : StepRes :=
  if lines.length ≤ i then .stop
  else
    let line := lines.getD i ""
    if line.data.all isWsChar then .skip (i + 1)
    else if totalCostQtyStart line then .stop
    else if numberOfPacksBare line then .stop
    else if !skuStartTest line then .skip (i + 1)
    else
      match matchSkuLine line with
      | none => .skip (i + 1)
      | some (_, sku, rest) =>
        let remainder := collapseWs rest.jsTrim
        if containsDollarDigit remainder && !(pricesOf remainder).isEmpty then
          .emit (s2InlineItem lines i sku remainder) (i + 1)
        else s2Deferred lines i sku remainder

def s2Run (lines : List String) (hIdx : Nat) : List Item :=
  runStrat (s2Body lines) (lines.length + 1) (hIdx + 1)

/-! ### Strategy 3: single-line compressed rows (source lines 771-911) -/

/-- The cost selection shared by Strategies 3 and 4 (lines 893 and 1109). -/
def priceCostSel (nps : List String) : String := jsOr (nps.getD 0 "") ""

/-- The retail selection shared by Strategies 3 and 4; the expressions at
lines 895 and 1111 are textually identical: the third price, or the second
when exactly two prices were parsed. -/
def priceRetailSel (nps : List String) : String :=
  jsOr (nps.getD 2 "") (if nps.length = 2 then nps.getD 1 "" else "")

/-- The parseLeftSide helper of Strategy 3 (source lines 777-815): style,
color, size, description, pack quantity from the left text. -/
def s3ParseLeftSide (text : String) : String × String × String × String × String :=
  let working0 := text.jsTrim
  let sc :=
    match findColor working0 with
    | some (ix, matched) =>
      ((String.mk (working0.data.take ix)).jsTrim, matched,
       (String.mk (working0.data.drop (ix + matched.data.length))).jsTrim)
    | none =>
      let firstToken := String.mk (working0.data.takeWhile (fun c => !isWsChar c))
      (firstToken, "", (String.mk (working0.data.drop firstToken.data.length)).jsTrim)
  let sz :=
    match sizeDimsAt sc.2.2.data with
    | some m => (String.mk m, (String.mk (sc.2.2.data.drop m.length)).jsTrim)
    | none => ("", sc.2.2)
  let pqw :=
    match leadPackQtyDec sz.2 with
    | some (pq, w) => (pq, w)
    | none => ("", sz.2)
  (sc.1, sc.2.1, sz.1, (stripDotDashWs pqw.2).jsTrim, pqw.1)

/-- The computed row fields of a single-line or distant-price row: style,
color, size, description, cost, retail, pack quantity, quantity. -/
structure RowOut where
  style : String
  color : String
  size : String
  descr : String
  cost : String
  retail : String
  packQty : String
  qty : String
deriving DecidableEq, Repr

/-- The row computation of Strategy 3 after the SKU match and the
deduplication test (source lines 863-907). -/
def s3Core (afterSku : String) : Option RowOut :=
  let allPrices := pricesOf afterSku
  if allPrices.isEmpty then none
  else
    let nps := allPrices.map normalizePrice
    match scanPrices afterSku.data with
    | [] => none
    | (ix, _) :: _ =>
      let left := (String.mk (afterSku.data.take ix)).jsTrim
      let lastEnd := lastPriceEnd afterSku.data allPrices
      let right := (String.mk (afterSku.data.drop lastEnd)).jsTrim
      let pl := s3ParseLeftSide left
      let q := parseQuantities right
      some
        { style := pl.1
          color := pl.2.1
          size := pl.2.2.1
          descr := pl.2.2.2.1
          cost := priceCostSel nps
          retail := priceRetailSel nps
          packQty := jsOr pl.2.2.2.2 q.1
          qty := jsOr q.2.2 (jsOr q.2.1 "") }

/-- The four break labels of the Strategy 3 candidate loop (lines 850-853);
the sequential tests all break, so their disjunction is equivalent. -/
def s3StopLine (line : String) : Bool :=
  totalCostQtyStart line || numberOfPacksBare line || orderedColonEnd line ||
    noOfWordPacksOrderedEnd line

def s3Body (lines : List String) (i : Nat) (seen : List String) : StepRes :=
  if lines.length ≤ i then .stop
  else
    let line := lines.getD i ""
    if line = "" then .skip (i + 1)
    else if s3StopLine line then .stop
    else if !skuStartTest line then .skip (i + 1)
    else
      match matchSkuLine line with
      | none => .skip (i + 1)
      | some (_, sku, after0) =>
        if seen.contains sku then .skip (i + 1)
        else
          match s3Core after0.jsTrim with
          | none => .skip (i + 1)
          | some o =>
            .emit
              { sku := sku, mfgStyle := o.style, mfgColor := o.color, sizeDesc := o.size
                descText := o.descr, costUnit := o.cost, comp := "", retail := o.retail
                packQty := o.packQty, qty := o.qty, upc := "" }
              (i + 1)

def s3Run (lines : List String) (hIdx : Nat) (seen : List String) : List Item :=
  runStratSeen (s3Body lines) (lines.length + 1) (hIdx + 1) seen

/-! ### Strategy 4: multi-line with distant price (source lines 914-1145) -/

/-- The size match of Strategy 4 (line 987): optional dot, digits, optional
decimal part, optional letter, then optional whitespace. Returns the group
and the remaining text after the whole match, trimmed. -/
def s4SizeMatch (s : String) : Option (String × String) :=
  let l1 := match s.data with | '.' :: r => r | _ => s.data
  let a := l1.takeWhile Char.isDigit
  if a.isEmpty then none
  else
    let r1 := l1.drop a.length
    let fr :=
      match r1 with
      | '.' :: rr =>
        let b := rr.takeWhile Char.isDigit
        if b.isEmpty then (([] : List Char), r1) else ('.' :: b, rr.drop b.length)
      | _ => (([] : List Char), r1)
    let le :=
      match fr.2 with
      | c :: rr => if isAsciiLetter c then ([c], rr) else (([] : List Char), fr.2)
      | [] => (([] : List Char), fr.2)
    some (String.mk (a ++ fr.1 ++ le.1), (String.mk (le.2.dropWhile isWsChar)).jsTrim)

/-- The description-and-price-line search of Strategy 4 (lines 999-1017):
up to five lines after the data line, skipping UPC lines and accumulating
description lines until a line with a dollar amount. -/
def s4FindPrice (lines : List String) : Nat → Nat → Nat → List String → (List String × Option Nat)
  | 0, _, _, acc => (acc, none)
  | fuel + 1, j, stop, acc =>
    if stop ≤ j then (acc, none)
    else
      let checkLine := (lines.getD j "").jsTrim
      if checkLine = "" then s4FindPrice lines fuel (j + 1) stop acc
      else if numberOfPacksBare checkLine then (acc, none)
      else if orderedColonEnd checkLine then (acc, none)
      else if noOfWordPacksOrderedEnd checkLine then (acc, none)
      else if totalCostQtyPackStart checkLine then (acc, none)
      else if skuStartTest checkLine then (acc, none)
      else if containsDollarDigit checkLine then (acc, some j)
      else if startsWithCI checkLine "upc:" then s4FindPrice lines fuel (j + 1) stop acc
      else s4FindPrice lines fuel (j + 1) stop (acc ++ [checkLine])

/-- The price accumulation loop of Strategy 4 (lines 1021-1093). Returns the
accumulated price text, the pack quantity from a number-of-packs label and
the quantity derived from that label. -/
def s4Accum (lines : List String) : Nat → Nat → Nat → String → Bool → (String × String × String)
  | 0, _, _, priceText, _ => (priceText, "", "")
  | fuel + 1, j, stop, priceText, found =>
    if stop ≤ j then (priceText, "", "")
    else
      let checkLine := (lines.getD j "").jsTrim
      if numberOfPacksStart checkLine then
        let pqU :=
          match searchUnitsNum checkLine with
          | some u => u
          | none =>
            if unitsColonEnd checkLine then
              let nl := (lines.getD (j + 1) "").jsTrim
              if digitsLenBetween nl 1 2 then nl else ""
            else ""
        let qtyL :=
          match searchPacksOrderedLit checkLine with
          | some p => if pqU ≠ "" then toString (digitsVal p.data * digitsVal pqU.data) else p
          | none => ""
        (priceText, pqU, qtyL)
      else if totalCostQtyPackStart checkLine then (priceText, "", "")
      else if skuStartTest checkLine then (priceText, "", "")
      else if startsWithCI checkLine "upc:" then s4Accum lines fuel (j + 1) stop priceText found
      else if containsDollarDigit checkLine then
        if hasCompleteQty priceText then (priceText, "", "")
        else s4Accum lines fuel (j + 1) stop (priceText ++ " " ++ checkLine) true
      else if found && checkLine.data.length = 1 && checkLine.data.all Char.isDigit then
        if !hasCompleteQty priceText then s4Accum lines fuel (j + 1) stop (priceText ++ checkLine) found
        else s4Accum lines fuel (j + 1) stop priceText found
      else if found && digitsLenBetween checkLine 2 3 then s4Accum lines fuel (j + 1) stop priceText found
      else if found && allDigits checkLine && 4 ≤ checkLine.data.length then
        if !hasCompleteQty priceText then s4Accum lines fuel (j + 1) stop (priceText ++ " " ++ checkLine) found
        else s4Accum lines fuel (j + 1) stop priceText found
      else if found && digitsLenBetween checkLine 1 4 then s4Accum lines fuel (j + 1) stop priceText found
      else s4Accum lines fuel (j + 1) stop (priceText ++ " " ++ checkLine) found

/-- The row computation of Strategy 4 after the SKU match and its skip
tests (source lines 947-1143). Returns the row fields and the index to
continue the scan from. -/
def s4Core (lines : List String) (i : Nat) (afterSku0 : String) : Option (RowOut × Nat) :=
  let pulled :=
    if afterSku0 = "" && i + 1 < lines.length then
      let nextLine := (lines.getD (i + 1) "").jsTrim
      if nextLine ≠ "" && !(startsWithCI nextLine "upc:") &&
         !(nextLine.data.head? = some '$') && !(skuStartTest nextLine) &&
         !(startsWithCI nextLine "number") then
        (nextLine, i + 1)
      else (afterSku0, i)
    else (afterSku0, i)
  let dataLineIdx := pulled.2
  let sc :=
    match findColor pulled.1 with
    | some (ix, matched) =>
      ((String.mk (pulled.1.data.take ix)).jsTrim, matched,
       (String.mk (pulled.1.data.drop (ix + matched.data.length))).jsTrim)
    | none =>
      let firstToken := String.mk (pulled.1.data.takeWhile (fun c => !isWsChar c))
      (firstToken, "", (String.mk (pulled.1.data.drop firstToken.data.length)).jsTrim)
  let szp :=
    match dotPqDotPat sc.2.2 with
    | some (pq, r) => (".", pq, r.jsTrim)
    | none =>
      match textSizePqPat sc.2.2 with
      | some (l, pq, r) => (l.jsTrim, pq, r.jsTrim)
      | none =>
        if (dotPqInlinePat sc.2.2).isSome && !looksLikeSizePat sc.2.2 then
          match dotPqInlinePat sc.2.2 with
          | some (pq, r) => (".", pq, r.jsTrim)
          | none => ("", "", sc.2.2)
        else
          match s4SizeMatch sc.2.2 with
          | some (g, rest) => (g, "", rest)
          | none => ("", "", sc.2.2)
  let descParts0 := if szp.2.2 ≠ "" then [szp.2.2] else []
  let fp := s4FindPrice lines 6 (dataLineIdx + 1) (min (dataLineIdx + 6) lines.length) descParts0
  match fp.2 with
  | none => none
  | some priceIdx =>
    let acc := s4Accum lines 9 priceIdx (min (priceIdx + 8) lines.length) "" false
    let cleanPriceText := s4FixPriceText acc.1.jsTrim
    let priceMatches := pricesOf cleanPriceText
    let nps := priceMatches.map normalizePrice
    let fb :=
      if acc.2.2 ≠ "" then ("", acc.2.2)
      else
        let qd := qtyDigitsAfterPrices cleanPriceText priceMatches
        if 4 ≤ qd.length then
          (String.mk (qd.take 1), String.mk ((qd.drop 1).drop ((qd.drop 1).length / 2)))
        else ("", String.mk qd)
    some
      ({ style := sc.1
         color := sc.2.1
         size := szp.1
         descr := (joinSp fp.1).jsTrim
         cost := priceCostSel nps
         retail := priceRetailSel nps
         packQty := jsOr szp.2.1 (jsOr acc.2.1 fb.1)
         qty := fb.2 },
       priceIdx + 1)

/-- The skip tests of the Strategy 4 candidate loop (lines 920-928); the
sequential continue tests all skip to the next line, so their disjunction is
equivalent. -/
def s4SkipLine (line : String) : Bool :=
  line = "" || totalCostQtyStart line || noOfWordPacksStart line || totalPackSpStart line ||
    packSkuStart line || startsWithCI line "page" || !skuStartTest line

def s4Body (lines : List String) (i : Nat) (seen : List String) : StepRes :=
  if lines.length ≤ i then .stop
  else
    let line := lines.getD i ""
    if s4SkipLine line then .skip (i + 1)
    else
      match matchSkuLine line with
      | none => .skip (i + 1)
      | some (_, sku, after0) =>
        if seen.contains sku || containsDollarDigit after0.jsTrim then .skip (i + 1)
        else
          match s4Core lines i after0.jsTrim with
          | none => .skip (i + 1)
          | some o =>
            .emit
              { sku := sku, mfgStyle := o.1.style, mfgColor := o.1.color, sizeDesc := o.1.size
                descText := o.1.descr, costUnit := o.1.cost, comp := "", retail := o.1.retail
                packQty := o.1.packQty, qty := o.1.qty, upc := "" }
              o.2

def s4Run (lines : List String) (hIdx : Nat) (seen : List String) : List Item :=
  runStrat (fun i => s4Body lines i seen) (lines.length + 1) (hIdx + 1)

/-! ### Post-filter and the assembled parser (source lines 1148-1168) -/

/-- The post-filter predicate: drop a Units-artifact style, an all-digit
style, and items with neither cost nor quantity. -/
def keepItem (it : Item) : Bool :=
  let style := it.mfgStyle.jsTrim
  if startsWithCI style "units" then false
  else if allDigits style then false
  else if it.costUnit.jsTrim = "" && it.qty = "" then false
  else true

/-- The four-strategy pipeline on an already split and trimmed line list. -/
def parseFromLines (lines : List String) : List Item :=
  match findHeaderIdx lines with
  | none => []
  | some hIdx =>
    let items1 := s1Run lines hIdx
    let items2 := if items1.isEmpty then s2Run lines hIdx else []
    let itemsA := items1 ++ items2
    let itemsB := itemsA ++ s3Run lines hIdx (itemsA.map (·.sku))
    let itemsC := itemsB ++ s4Run lines hIdx (itemsB.map (·.sku))
    itemsC.filter keepItem

/-- The complete parseSkuTable function (source lines 263-1169). -/
def parseSkuTable (pdfText : String) : List Item :=
  parseFromLines (linesOf pdfText)

/-! ### Cross-document merge (source lines 1211-1250)

A record is one parsed item broadcast-joined with its document metadata;
the merge only reads the fields modelled here. The merge state is the pair
of the dictionary and the key order, modelled as one association list in
insertion order. -/

structure MRecord where
  sku : String
  mfgStyle : String
  cost : String
  retail : String
  packQty : String
  qty : String
  po : String
  src : String
deriving DecidableEq, Repr

def mrKey (r : MRecord) : String := r.sku ++ "|" ++ r.mfgStyle

/-- A merged row: pack quantity is null until a positive value is written;
the per-PO cells hold none when the JavaScript cell holds NaN. -/
structure MergedRec where
  sku : String
  style : String
  cost : String
  retail : String
  packQty : Option Nat
  poQty : List (String × Option Nat)
  files : List String
deriving DecidableEq, Repr

abbrev MState := List (String × MergedRec)

def findRec : MState → String → Option MergedRec
  | [], _ => none
  | (k, v) :: rest, key => if k = key then some v else findRec rest key

def lookupCell : List (String × Option Nat) → String → Option (Option Nat)
  | [], _ => none
  | (k, v) :: rest, key => if k = key then some v else lookupCell rest key

/-- Property assignment on the per-PO map: replace in place or append. -/
def setCell : List (String × Option Nat) → String → Option Nat → List (String × Option Nat)
  | [], key, v => [(key, v)]
  | (k, w) :: rest, key, v =>
    if k = key then (k, v) :: rest else (k, w) :: setCell rest key v

/-- In-place update of the dictionary entry of a key. -/
def replaceRec : MState → String → MergedRec → MState
  | [], key, v => [(key, v)]
  | (k, w) :: rest, key, v =>
    if k = key then (k, v) :: rest else (k, w) :: replaceRec rest key v

/-- The parseInt guard value of the pack-quantity update: an empty string is
first turned into the number zero; a parse failure gives NaN, which fails
the positivity guard exactly as zero does, so both are modelled by zero. -/
def packNum (r : MRecord) : Nat :=
  if r.packQty = "" then 0 else (jsParseInt r.packQty).getD 0

/-- The per-PO quantity of a record: an empty string is turned into zero; a
parse failure is NaN, modelled by none. -/
def qtyNum (r : MRecord) : Option Nat :=
  if r.qty = "" then some 0 else jsParseInt r.qty

/-- The dictionary record a merge iteration starts from: the stored record
of the key, or a fresh one built from the incoming record (source lines
1216-1228). -/
def mergeM0 (st : MState) (r : MRecord) : MergedRec :=
  match findRec st (mrKey r) with
  | some m => m
  | none =>
    { sku := r.sku, style := r.mfgStyle, cost := r.cost, retail := r.retail
      packQty := none, poQty := [], files := [] }

/-- The record of the key after one merge iteration, in source order: the
pack-quantity overwrite guard, the per-PO cell accumulation, then the file
list (source lines 1230-1248). -/
def mergeM3 (st : MState) (r : MRecord) : MergedRec :=
  let m0 := mergeM0 st r
  let m1 : MergedRec :=
    if (match m0.packQty with | none => true | some n => n = 0) then
      (if 0 < packNum r then { m0 with packQty := some (packNum r) } else m0)
    else m0
  let m2 : MergedRec :=
    if r.po ≠ "" then
      let prev := match lookupCell m1.poQty r.po with | some (some n) => n | _ => 0
      let cell := match qtyNum r with | some q => some (prev + q) | none => none
      { m1 with poQty := setCell m1.poQty r.po cell }
    else m1
  let m3 : MergedRec :=
    if r.src ≠ "" then
      (if r.src ∈ m2.files then m2 else { m2 with files := m2.files ++ [r.src] })
    else m2
  m3

/-- One iteration of the merge loop (source lines 1214-1250). -/
def mergeStep (st : MState) (r : MRecord) : MState :=
  if (findRec st (mrKey r)).isSome then replaceRec st (mrKey r) (mergeM3 st r)
  else st ++ [(mrKey r, mergeM3 st r)]

def mergeFold (rs : List MRecord) : MState := rs.foldl mergeStep []

/-- The summed quantity read back from the merge state, zero when absent. -/
def poVal (st : MState) (k po : String) : Nat :=
  match findRec st k with
  | none => 0
  | some m =>
    match lookupCell m.poQty po with
    | some (some n) => n
    | _ => 0

/-- Well-formed quantity strings: empty or all digits, as every string
produced by the parser is. Then no NaN cell can arise. -/
def qtyWFB (r : MRecord) : Bool :=
  r.qty = "" || ((!r.qty.data.isEmpty) && r.qty.data.all Char.isDigit)

/-- The quantity value a well-formed record contributes. -/
def qtyValWF (r : MRecord) : Nat := (qtyNum r).getD 0

def matchKeyPo (r : MRecord) (k po : String) : Bool :=
  mrKey r = k && r.po = po && r.po ≠ ""

/-- The reference sum: total quantity of all records of a key and PO. -/
def poSumSpec (rs : List MRecord) (k po : String) : Nat :=
  (rs.map (fun r => if matchKeyPo r k po then qtyValWF r else 0)).sum

/-! ### Batch conversion (source lines 1174-1205)

The per-document work is wrapped in a try/catch; a document whose
extraction collaborator throws contributes nothing and the loop continues.
The fails flag models a thrown extraction; parseSkuTable itself is total.
The function raises (returns an error) exactly when no record at all was
collected. -/

structure BatchDoc where
  fails : Bool
  text : String
  po : String
  src : String
deriving Repr

def itemToRecord (po src : String) (it : Item) : MRecord :=
  { sku := it.sku, mfgStyle := it.mfgStyle, cost := it.costUnit, retail := it.retail
    packQty := it.packQty, qty := it.qty, po := po, src := src }

/-- The records one document contributes to the batch: none when its
processing threw, one per parsed item otherwise. -/
def docRecords (d : BatchDoc) : List MRecord :=
  if d.fails then [] else (parseSkuTable d.text).map (itemToRecord d.po d.src)

def allRecords (docs : List BatchDoc) : List MRecord :=
  (docs.map docRecords).flatten

/-- The batch conversion up to the merge input: the error is raised if and
only if the collected record list is empty (source lines 1203-1205). -/
def processBatch (docs : List BatchDoc) : Except String (List MRecord) :=
  if (allRecords docs).isEmpty then
    .error "No data extracted from any PDF. Check browser console for details."
  else .ok (allRecords docs)

/-! ### Support lemmas for the price-normalization claim -/

theorem data_mk (l : List Char) : (String.mk l).data = l := rfl

/-- The exact shape of a string matched by the price pattern: a dollar sign,
a nonempty digit-or-comma run, a dot, then one or two digits, nothing else. -/
def priceShapeB (s : String) : Bool :=
  let run := (s.data.drop 1).takeWhile isDigitComma
  let rest2 := (s.data.drop 1).dropWhile isDigitComma
  (s.data.take 1 = ['$']) && (!run.isEmpty) && (rest2.take 1 = ['.']) &&
    ((rest2.drop 1).length = 1 || (rest2.drop 1).length = 2) &&
    (rest2.drop 1).all Char.isDigit

/-- Number of fraction digits as the dot split of the normalization sees
them. -/
def fracLen (s : String) : Nat :=
  match splitDotAux s.data [] with
  | _ :: b :: _ => b.length
  | _ => 0

theorem splitDotAux_append : ∀ (a cur b : List Char), (∀ c ∈ a, c ≠ '.') →
    splitDotAux (a ++ '.' :: b) cur = (cur.reverse ++ a) :: splitDotAux b []
  | [], cur, b, _ => by simp [splitDotAux]
  | c :: rest, cur, b, h => by
    have hc : c ≠ '.' := h c (by simp)
    simp only [List.cons_append, splitDotAux, if_neg hc, List.append_eq]
    rw [splitDotAux_append rest (c :: cur) b (fun x hx => h x (by simp [hx]))]
    simp

theorem splitDotAux_noDot : ∀ (b cur : List Char), (∀ c ∈ b, c ≠ '.') →
    splitDotAux b cur = [cur.reverse ++ b]
  | [], cur, _ => by simp [splitDotAux]
  | c :: rest, cur, h => by
    have hc : c ≠ '.' := h c (by simp)
    simp only [splitDotAux, if_neg hc]
    rw [splitDotAux_noDot rest (c :: cur) (fun x hx => h x (by simp [hx]))]
    simp

theorem take1_eq_cons (l : List Char) (c : Char) (h : l.take 1 = [c]) :
    l = c :: l.drop 1 := by
  cases l with
  | nil => simp at h
  | cons a r =>
    obtain rfl : a = c := by simpa using h
    simp

theorem isDigitComma_ne_dot (c : Char) (h : isDigitComma c = true) : c ≠ '.' := by
  intro he
  subst he
  simp [isDigitComma, Char.isDigit] at h

theorem normalizePrice_decomp (run frac : List Char)
    (hrun : ∀ c ∈ run, c ≠ '.') (hfrac : ∀ c ∈ frac, c ≠ '.') :
    normalizePrice (String.mk ('$' :: run ++ '.' :: frac)) =
      (if frac.length = 1 then String.mk ('$' :: run ++ '.' :: (frac ++ ['0']))
       else String.mk ('$' :: run ++ '.' :: frac)) := by
  have hnd : ∀ c ∈ '$' :: run, c ≠ '.' := by
    intro c hc
    rcases List.mem_cons.mp hc with h1 | h2
    · subst h1; decide
    · exact hrun c h2
  unfold normalizePrice
  rw [data_mk, show ('$' :: run ++ '.' :: frac) = (('$' :: run) ++ '.' :: frac) from by simp,
    splitDotAux_append _ _ _ hnd, splitDotAux_noDot frac [] hfrac]
  simp only [List.reverse_nil, List.nil_append]
  split
  · next hlen => simp [hlen]
  · next hlen => rfl

/-- C8 groundwork: every price-shaped string decomposes as dollar, run, dot,
fraction, with the run dot-free and the fraction one or two digits. -/
theorem priceShapeB_decomp (s : String) (h : priceShapeB s = true) :
    ∃ run frac, s.data = '$' :: run ++ '.' :: frac ∧
      (∀ c ∈ run, c ≠ '.') ∧ (∀ c ∈ frac, c ≠ '.') ∧
      (frac.length = 1 ∨ frac.length = 2) := by
  unfold priceShapeB at h
  simp only [Bool.and_eq_true, decide_eq_true_eq, Bool.or_eq_true] at h
  obtain ⟨⟨⟨⟨h1, _⟩, h3⟩, h4⟩, h5⟩ := h
  refine ⟨(s.data.drop 1).takeWhile isDigitComma, ((s.data.drop 1).dropWhile isDigitComma).drop 1,
    ?_, ?_, ?_, ?_⟩
  · have hl : s.data = '$' :: s.data.drop 1 := take1_eq_cons _ _ h1
    have hdot : (s.data.drop 1).dropWhile isDigitComma =
        '.' :: ((s.data.drop 1).dropWhile isDigitComma).drop 1 := take1_eq_cons _ _ h3
    have hsplit := List.takeWhile_append_dropWhile (p := isDigitComma) (l := s.data.drop 1)
    rw [hdot] at hsplit
    conv_lhs => rw [hl, ← hsplit]
    simp
  · intro c hc
    exact isDigitComma_ne_dot c (List.mem_takeWhile_imp hc)
  · intro c hc
    have hdig : c.isDigit := by
      have := List.all_eq_true.mp h5 c hc
      simpa using this
    intro he
    subst he
    simp [Char.isDigit] at hdig
  · exact h4

theorem dollarRun_noDot (run : List Char) (hrun : ∀ c ∈ run, c ≠ '.') :
    ∀ c ∈ '$' :: run, c ≠ '.' := by
  intro c hc
  rcases List.mem_cons.mp hc with h1 | h2
  · subst h1; decide
  · exact hrun c h2

theorem fracLen_decomp (s : String) (run frac : List Char)
    (hdata : s.data = '$' :: run ++ '.' :: frac) (hrun : ∀ c ∈ run, c ≠ '.')
    (hfrac : ∀ c ∈ frac, c ≠ '.') : fracLen s = frac.length := by
  unfold fracLen
  rw [hdata, show ('$' :: run ++ '.' :: frac) = (('$' :: run) ++ '.' :: frac) from by simp,
    splitDotAux_append _ _ _ (dollarRun_noDot run hrun), splitDotAux_noDot frac [] hfrac]
  simp

/-- C8: price normalization maps $12.3 and $12.30 to the same string $12.30
and is idempotent: for every string matched by the price pattern, an amount
with one fractional digit is padded with a trailing zero, an amount with two
fractional digits is returned unchanged, and normalizing twice equals
normalizing once. -/
theorem c8_price_normalization :
    (normalizePrice "$12.3" = "$12.30" ∧ normalizePrice "$12.30" = "$12.30") ∧
    ∀ s : String, priceShapeB s = true →
      (fracLen s = 1 → normalizePrice s = s ++ "0") ∧
      (fracLen s = 2 → normalizePrice s = s) ∧
      normalizePrice (normalizePrice s) = normalizePrice s := by
  refine ⟨⟨by rfl, by rfl⟩, ?_⟩
  intro s h
  obtain ⟨run, frac, hdata, hrun, hfrac, hlen⟩ := priceShapeB_decomp s h
  have hs : s = String.mk ('$' :: run ++ '.' :: frac) := by
    rw [← hdata]
  have hfl : fracLen s = frac.length := fracLen_decomp s run frac hdata hrun hfrac
  rcases hlen with h1 | h2
  · have hnorm : normalizePrice s = String.mk ('$' :: run ++ '.' :: (frac ++ ['0'])) := by
      conv_lhs => rw [hs]
      rw [normalizePrice_decomp run frac hrun hfrac, if_pos h1]
    refine ⟨?_, ?_, ?_⟩
    · intro _
      rw [hnorm, hs]
      show _ = String.mk ('$' :: run ++ '.' :: frac) ++ String.mk ['0']
      show _ = String.mk (('$' :: run ++ '.' :: frac) ++ ['0'])
      congr 1
      simp
    · intro hx
      exfalso
      rw [hfl] at hx
      omega
    · rw [hnorm]
      have hfrac0 : ∀ c ∈ frac ++ ['0'], c ≠ '.' := by
        intro c hc
        rcases List.mem_append.mp hc with hm | hm
        · exact hfrac c hm
        · have : c = '0' := by simpa using hm
          subst this; decide
      rw [normalizePrice_decomp run (frac ++ ['0']) hrun hfrac0,
        if_neg (by simp [h1])]
  · have hnorm : normalizePrice s = s := by
      conv_lhs => rw [hs]
      rw [normalizePrice_decomp run frac hrun hfrac, if_neg (by omega)]
      exact hs.symm
    refine ⟨?_, fun _ => hnorm, by rw [hnorm, hnorm]⟩
    intro hx
    exfalso
    rw [hfl] at hx
    omega

/-- Witness for C8 at the concrete inputs $5.4 and $7.25. -/
theorem c8_price_normalization_witness :
    priceShapeB "$5.4" = true ∧ normalizePrice "$5.4" = "$5.4" ++ "0" ∧
      normalizePrice (normalizePrice "$5.4") = normalizePrice "$5.4" ∧
      priceShapeB "$7.25" = true ∧ normalizePrice "$7.25" = "$7.25" := by
  have h1 := c8_price_normalization.2 "$5.4" (by decide)
  have h2 := c8_price_normalization.2 "$7.25" (by decide)
  exact ⟨by decide, h1.1 (by decide), h1.2.2, by decide, h2.2.1 (by decide)⟩

/-- C7: for every item produced by Strategy 1, the pack quantity is the
first collected quantity; the quantity is the third collected quantity when
three or more were collected, else the second when two were collected, else
the first; and the first, second and third collected prices become cost,
comp and retail. Every Strategy 1 item is s1Assign applied to the collected
lists, so this covers each of them. -/
theorem c7_strategy1_assignment (sk : String) (f : S1Fields) (ps : List String) (qs : List Nat) :
    (ps ≠ [] → (s1Assign sk f ps qs).costUnit = ps.getD 0 "") ∧
    (2 ≤ ps.length → (s1Assign sk f ps qs).comp = ps.getD 1 "") ∧
    (3 ≤ ps.length → (s1Assign sk f ps qs).retail = ps.getD 2 "") ∧
    (qs ≠ [] → (s1Assign sk f ps qs).packQty = toString (qs.getD 0 0)) ∧
    (3 ≤ qs.length → (s1Assign sk f ps qs).qty = toString (qs.getD 2 0)) ∧
    (qs.length = 2 → (s1Assign sk f ps qs).qty = toString (qs.getD 1 0)) ∧
    (qs.length = 1 → (s1Assign sk f ps qs).qty = toString (qs.getD 0 0)) := by
  refine ⟨fun h => ?_, fun h => ?_, fun h => ?_, fun h => ?_, fun h => ?_, fun h => ?_,
    fun h => ?_⟩
  · have h1 : 1 ≤ ps.length := List.length_pos.mpr h
    show (if 1 ≤ ps.length then ps.getD 0 "" else "") = ps.getD 0 ""
    rw [if_pos h1]
  · show (if 2 ≤ ps.length then ps.getD 1 "" else "") = ps.getD 1 ""
    rw [if_pos h]
  · show (if 3 ≤ ps.length then ps.getD 2 "" else "") = ps.getD 2 ""
    rw [if_pos h]
  · have h1 : 1 ≤ qs.length := List.length_pos.mpr h
    show (if 1 ≤ qs.length then toString (qs.getD 0 0) else "") = toString (qs.getD 0 0)
    rw [if_pos h1]
  · show (if 3 ≤ qs.length then toString (qs.getD 2 0)
        else if qs.length = 2 then toString (qs.getD 1 0)
        else if qs.length = 1 then toString (qs.getD 0 0) else "") = toString (qs.getD 2 0)
    rw [if_pos h]
  · show (if 3 ≤ qs.length then toString (qs.getD 2 0)
        else if qs.length = 2 then toString (qs.getD 1 0)
        else if qs.length = 1 then toString (qs.getD 0 0) else "") = toString (qs.getD 1 0)
    rw [if_neg (by omega), if_pos h]
  · show (if 3 ≤ qs.length then toString (qs.getD 2 0)
        else if qs.length = 2 then toString (qs.getD 1 0)
        else if qs.length = 1 then toString (qs.getD 0 0) else "") = toString (qs.getD 0 0)
    rw [if_neg (by omega), if_neg (by omega), if_pos h]

/-- Witness for C7 at concrete collected lists. -/
theorem c7_strategy1_assignment_witness :
    (s1Assign "12345678" {} ["$1.00", "$2.00", "$3.00"] [2, 3, 4]).costUnit
        = ["$1.00", "$2.00", "$3.00"].getD 0 "" ∧
    (s1Assign "12345678" {} ["$1.00", "$2.00", "$3.00"] [2, 3, 4]).comp
        = ["$1.00", "$2.00", "$3.00"].getD 1 "" ∧
    (s1Assign "12345678" {} ["$1.00", "$2.00", "$3.00"] [2, 3, 4]).retail
        = ["$1.00", "$2.00", "$3.00"].getD 2 "" ∧
    (s1Assign "12345678" {} ["$1.00", "$2.00", "$3.00"] [2, 3, 4]).packQty
        = toString ([2, 3, 4].getD 0 0) ∧
    (s1Assign "12345678" {} ["$1.00", "$2.00", "$3.00"] [2, 3, 4]).qty
        = toString ([2, 3, 4].getD 2 0) ∧
    (s1Assign "12345678" {} ["$1.00"] [2, 9]).qty = toString ([2, 9].getD 1 0) ∧
    (s1Assign "12345678" {} ["$1.00"] [7]).qty = toString ([7].getD 0 0) := by
  have h1 := c7_strategy1_assignment "12345678" {} ["$1.00", "$2.00", "$3.00"] [2, 3, 4]
  have h2 := c7_strategy1_assignment "12345678" {} ["$1.00"] [2, 9]
  have h3 := c7_strategy1_assignment "12345678" {} ["$1.00"] [7]
  exact ⟨h1.1 (by decide), h1.2.1 (by decide), h1.2.2.1 (by decide), h1.2.2.2.1 (by decide),
    h1.2.2.2.2.1 (by decide), h2.2.2.2.2.2.1 (by decide), h3.2.2.2.2.2.2 (by decide)⟩

/-! ### C6: the post-filter -/

theorem mem_parseFromLines_keep (lines : List String) (it : Item)
    (h : it ∈ parseFromLines lines) : keepItem it = true := by
  unfold parseFromLines at h
  cases hh : findHeaderIdx lines with
  | none => rw [hh] at h; simp at h
  | some hIdx => rw [hh] at h; exact List.of_mem_filter h

theorem keepItem_conds (it : Item) (h : keepItem it = true) :
    startsWithCI it.mfgStyle.jsTrim "units" = false ∧
    allDigits it.mfgStyle.jsTrim = false ∧
    (it.costUnit.jsTrim ≠ "" ∨ it.qty ≠ "") := by
  simp only [keepItem] at h
  split_ifs at h with h1 h2 h3
  refine ⟨?_, ?_, ?_⟩
  · cases hb : startsWithCI it.mfgStyle.jsTrim "units"
    · rfl
    · exact absurd hb h1
  · cases hb : allDigits it.mfgStyle.jsTrim
    · rfl
    · exact absurd hb h2
  · by_cases hc : it.costUnit.jsTrim = ""
    · right
      intro hq
      exact h3 (by simp [hc, hq])
    · left; exact hc

/-- C6: every item in the final output of parseSkuTable has a non-empty
cost or a non-empty quantity, and no retained item has a style that is
purely numeric or that starts with the Units artifact; every item violating
one of these conditions is removed by the post-filter. -/
theorem c6_post_filter :
    (∀ (text : String) (it : Item), it ∈ parseSkuTable text →
       startsWithCI it.mfgStyle.jsTrim "units" = false ∧
       allDigits it.mfgStyle.jsTrim = false ∧
       (it.costUnit.jsTrim ≠ "" ∨ it.qty ≠ "")) ∧
    (∀ (text : String) (it : Item), keepItem it = false → it ∉ parseSkuTable text) := by
  constructor
  · intro text it h
    exact keepItem_conds it (mem_parseFromLines_keep _ it h)
  · intro text it hk h
    rw [mem_parseFromLines_keep _ it h] at hk
    exact Bool.true_eq_false ▸ hk.symm ▸ (by simp at hk)

def c6Doc : String :=
  "SKU MFG STYLE\n12345678\nRedStyle\nRed\n10X8\nWidget\n$5.00\n$7.00\n$10.00\n2\n3\n4"

def c6Item : Item :=
  { sku := "12345678", mfgStyle := "RedStyle", mfgColor := "Red", sizeDesc := "10X8"
    descText := "Widget", costUnit := "$5.00", comp := "$7.00", retail := "$10.00"
    packQty := "2", qty := "4", upc := "" }

def c6BadItem : Item :=
  { sku := "", mfgStyle := "", mfgColor := "", sizeDesc := "", descText := ""
    costUnit := "", comp := "", retail := "", packQty := "", qty := "", upc := "" }

/-! ### C4: the header locator -/

/-- The header condition evaluated at scan index i: the condition of
headerCondList on the suffix that the scan of source lines 271-280 sees. -/
def headerCondAt (lines : List String) (i : Nat) : Bool :=
  headerCondList (lines.drop i)

theorem findHeaderIdxAux_none : ∀ (lines : List String) (k : Nat),
    (∀ i, i < lines.length → headerCondList (lines.drop i) = false) →
    findHeaderIdxAux lines k = none
  | [], _, _ => rfl
  | l :: rest, k, h => by
    have h0 := h 0 (by simp)
    simp only [List.drop_zero] at h0
    simp only [findHeaderIdxAux, h0, Bool.false_eq_true, if_false]
    exact findHeaderIdxAux_none rest (k + 1)
      (fun i hi => by
        have := h (i + 1) (by simpa using Nat.succ_lt_succ hi)
        simpa using this)

theorem findHeaderIdxAux_some : ∀ (lines : List String) (k i : Nat),
    headerCondList (lines.drop i) = true →
    (∀ j, j < i → headerCondList (lines.drop j) = false) →
    findHeaderIdxAux lines k = some (k + i)
  | [], _, i, h, _ => by
    rw [List.drop_nil] at h
    simp [headerCondList] at h
  | l :: rest, k, 0, h, _ => by
    simp only [List.drop_zero] at h
    simp [findHeaderIdxAux, h]
  | l :: rest, k, i + 1, h, hj => by
    have h0 := hj 0 (Nat.succ_pos i)
    simp only [List.drop_zero] at h0
    simp only [findHeaderIdxAux, h0, Bool.false_eq_true, if_false]
    rw [findHeaderIdxAux_some rest (k + 1) i (by simpa using h)
      (fun j hjj => by
        have := hj (j + 1) (by omega)
        simpa using this)]
    congr 1
    omega

/-- C4: when no line satisfies the header criteria, parseSkuTable returns
the empty item list (the embedding is a total function, so no exception is
possible); otherwise the located header index is the first index whose
condition holds, scanning from the top. -/
theorem c4_header_locator (text : String) :
    ((∀ i, i < (linesOf text).length → headerCondAt (linesOf text) i = false) →
      parseSkuTable text = []) ∧
    (∀ i, headerCondAt (linesOf text) i = true →
      (∀ j, j < i → headerCondAt (linesOf text) j = false) →
      findHeaderIdx (linesOf text) = some i) := by
  constructor
  · intro h
    unfold parseSkuTable parseFromLines
    have hn : findHeaderIdx (linesOf text) = none :=
      findHeaderIdxAux_none _ 0 (fun i hi => h i hi)
    rw [hn]
  · intro i h1 h2
    have := findHeaderIdxAux_some (linesOf text) 0 i h1 h2
    simpa using this

/-- Witness for C4: a document with no header line yields no items, and a
document with the header on its second line locates index one. -/
theorem c4_header_locator_witness :
    parseSkuTable "hello\nworld" = [] ∧
    findHeaderIdx (linesOf "junk\nSKU MFG STYLE\n12345678") = some 1 := by
  constructor
  · exact (c4_header_locator "hello\nworld").1 (by decide)
  · exact (c4_header_locator "junk\nSKU MFG STYLE\n12345678").2 1 (by decide) (by decide)

/-! ### C5: SKU shape through every strategy -/

theorem exact89_take (run : List Char) (hall : ∀ c ∈ run, c.isDigit = true)
    (h8 : 8 ≤ run.length) :
    exact89 (String.mk (run.take (if 9 ≤ run.length then 9 else 8))) = true := by
  unfold exact89
  rw [data_mk]
  have hlen : (run.take (if 9 ≤ run.length then 9 else 8)).length
      = if 9 ≤ run.length then 9 else 8 := by
    rw [List.length_take]
    split <;> omega
  have hdig : (run.take (if 9 ≤ run.length then 9 else 8)).all Char.isDigit = true :=
    List.all_eq_true.mpr (fun c hc => hall c (List.mem_of_mem_take hc))
  rw [hlen, hdig]
  split <;> simp_all

theorem matchSkuLine_sku (s pre sku rest : String)
    (h : matchSkuLine s = some (pre, sku, rest)) : exact89 sku = true := by
  simp only [matchSkuLine] at h
  split at h
  · next h8 =>
    simp only [Option.some.injEq, Prod.mk.injEq] at h
    obtain ⟨-, h2, -⟩ := h
    subst h2
    exact exact89_take _ (fun c hc => List.mem_takeWhile_imp hc) h8
  · exact absurd h (by simp)

theorem runStrat_mem {P : Item → Prop} (body : Nat → StepRes)
    (hb : ∀ j it n, body j = .emit it n → P it) :
    ∀ (fuel i : Nat) (it : Item), it ∈ runStrat body fuel i → P it := by
  intro fuel
  induction fuel with
  | zero => intro i it h; simp [runStrat] at h
  | succ n ih =>
    intro i it h
    cases hbody : body i with
    | stop => rw [runStrat, hbody] at h; simp at h
    | skip m => rw [runStrat, hbody] at h; exact ih m it h
    | emit itm m =>
      rw [runStrat, hbody] at h
      rcases List.mem_cons.mp h with h1 | h1
      · exact h1 ▸ hb i itm m hbody
      · exact ih m it h1

theorem runStratSeen_mem {P : Item → Prop} (body : Nat → List String → StepRes)
    (hb : ∀ j s it n, body j s = .emit it n → P it) :
    ∀ (fuel i : Nat) (seen : List String) (it : Item),
      it ∈ runStratSeen body fuel i seen → P it := by
  intro fuel
  induction fuel with
  | zero => intro i seen it h; simp [runStratSeen] at h
  | succ n ih =>
    intro i seen it h
    cases hbody : body i seen with
    | stop => rw [runStratSeen, hbody] at h; simp at h
    | skip m => rw [runStratSeen, hbody] at h; exact ih m seen it h
    | emit itm m =>
      rw [runStratSeen, hbody] at h
      rcases List.mem_cons.mp h with h1 | h1
      · exact h1 ▸ hb i seen itm m hbody
      · exact ih m (seen ++ [itm.sku]) it h1

theorem s1Loop_sku (lines : List String) : ∀ (fuel idx : Nat) (it : Item),
    it ∈ s1Loop lines fuel idx → exact89 it.sku = true := by
  intro fuel
  induction fuel with
  | zero => intro idx it h; simp [s1Loop] at h
  | succ n ih =>
    intro idx it h
    simp only [s1Loop] at h
    split at h
    · simp at h
    · split at h
      · exact ih _ it h
      · split at h
        · simp at h
        · split at h
          · simp at h
          · rcases List.mem_cons.mp h with h1 | h1
            · next hne _ =>
              have he : exact89 (lines.getD idx "") = true := by
                revert hne
                cases exact89 (lines.getD idx "") <;> simp
              rw [h1]
              exact he
            · exact ih _ it h1

theorem s2InlineItem_sku (lines : List String) (i : Nat) (sku remainder : String) :
    (s2InlineItem lines i sku remainder).sku = sku := rfl

theorem s2Deferred_emit (lines : List String) (i : Nat) (sku rem : String) (it : Item) (n : Nat)
    (h : s2Deferred lines i sku rem = .emit it n) : it.sku = sku := by
  simp only [s2Deferred] at h
  repeat' (split at h)
  all_goals (cases h <;> rfl)

theorem s2Body_emit (lines : List String) (i : Nat) (it : Item) (n : Nat)
    (h : s2Body lines i = .emit it n) : exact89 it.sku = true := by
  simp only [s2Body] at h
  repeat' (split at h)
  all_goals (try (cases h <;> rfl))
  all_goals
    first
      | (cases h
         rw [s2InlineItem_sku]
         apply matchSkuLine_sku
         assumption)
      | (rw [s2Deferred_emit _ _ _ _ _ _ h]
         apply matchSkuLine_sku
         assumption)

theorem s3Body_emit (lines : List String) (i : Nat) (seen : List String) (it : Item) (n : Nat)
    (h : s3Body lines i seen = .emit it n) : exact89 it.sku = true ∧ it.comp = "" := by
  simp only [s3Body] at h
  repeat' (split at h)
  all_goals (try (cases h))
  all_goals
    refine ⟨?_, rfl⟩
  all_goals
    apply matchSkuLine_sku
    assumption

theorem s4Body_emit (lines : List String) (i : Nat) (seen : List String) (it : Item) (n : Nat)
    (h : s4Body lines i seen = .emit it n) : exact89 it.sku = true ∧ it.comp = "" := by
  simp only [s4Body] at h
  repeat' (split at h)
  all_goals (try (cases h))
  all_goals
    refine ⟨?_, rfl⟩
  all_goals
    apply matchSkuLine_sku
    assumption

/-- C5 (amended): every item in the final output of parseSkuTable has an
8-9 digit SKU. The uniqueness half of the original claim is false; see the
counterexample theorem for a Strategy 1 document emitting the same SKU
twice. -/
theorem c5_sku_shape_amended (text : String) :
    ∀ it ∈ parseSkuTable text, exact89 it.sku = true := by
  intro it h
  unfold parseSkuTable parseFromLines at h
  cases hh : findHeaderIdx (linesOf text) with
  | none => rw [hh] at h; simp at h
  | some hIdx =>
    rw [hh] at h
    replace h := (List.mem_filter.mp h).1
    rcases List.mem_append.mp h with h | h
    · rcases List.mem_append.mp h with h | h
      · rcases List.mem_append.mp h with h | h
        · unfold s1Run at h
          cases hf : findFirstSku (linesOf text) hIdx with
          | none => rw [hf] at h; simp at h
          | some fIdx =>
            rw [hf] at h
            exact s1Loop_sku _ _ _ it h
        · by_cases he : (s1Run (linesOf text) hIdx).isEmpty
          · rw [if_pos he] at h
            exact runStrat_mem _ (fun j itm m hb => s2Body_emit _ _ _ _ hb) _ _ it h
          · rw [if_neg he] at h
            simp at h
      · exact (runStratSeen_mem _ (fun j s itm m hb => (s3Body_emit _ _ _ _ _ hb).1) _ _ _ it h)
    · exact (runStrat_mem _ (fun j itm m hb => (s4Body_emit _ _ _ _ _ hb).1) _ _ it h)

def c5Doc : String := "SKU MFG STYLE\n12345678\n$5.00\n12345678\n$6.00"

/-- Counterexample for C5 as stated: a document where Strategy 1 matches and
the output contains two items with the same SKU, because Strategy 1 keeps no
seen-SKU set. -/
theorem c5_duplicate_sku_counterexample :
    (parseSkuTable c5Doc).length = 2 ∧
    (parseSkuTable c5Doc).map Item.sku = ["12345678", "12345678"] := by
  constructor <;> rfl

/-- Witness for C5 on a concrete document and item. -/
theorem c5_sku_shape_amended_witness :
    exact89 (Item.sku
      { sku := "12345678", mfgStyle := "RedStyle", mfgColor := "Red", sizeDesc := "10X8"
        descText := "Widget", costUnit := "$5.00", comp := "$7.00", retail := "$10.00"
        packQty := "2", qty := "4", upc := "" }) = true := by
  exact c5_sku_shape_amended
    "SKU MFG STYLE\n12345678\nRedStyle\nRed\n10X8\nWidget\n$5.00\n$7.00\n$10.00\n2\n3\n4"
    _ (by decide)

/-! ### C10: price assignment of Strategies 3 and 4 -/

theorem jsOr_empty_right (x : String) : jsOr x "" = x := by
  unfold jsOr
  split <;> simp_all

/-- C10 (amended): in Strategies 3 and 4, with exactly two parsed prices the
first becomes cost and the second becomes retail; with three or more the
first becomes cost and the third becomes retail; and neither strategy ever
emits a comp value (the comp variable computed at lines 894 and 1110 is
never stored on the item). -/
theorem c10_price_assignment_amended :
    (∀ nps : List String, (∀ p ∈ nps, p ≠ "") →
      (priceCostSel nps = nps.getD 0 "") ∧
      (nps.length = 2 → priceRetailSel nps = nps.getD 1 "") ∧
      (3 ≤ nps.length → priceRetailSel nps = nps.getD 2 "")) ∧
    (∀ (lines : List String) (i : Nat) (seen : List String) (it : Item) (n : Nat),
      s3Body lines i seen = .emit it n → it.comp = "") ∧
    (∀ (lines : List String) (i : Nat) (seen : List String) (it : Item) (n : Nat),
      s4Body lines i seen = .emit it n → it.comp = "") := by
  refine ⟨?_, ?_, ?_⟩
  · intro nps h
    refine ⟨jsOr_empty_right _, ?_, ?_⟩
    · intro h2
      unfold priceRetailSel
      rw [List.getD_eq_default _ _ (by omega), if_pos h2]
      rfl
    · intro h3
      unfold priceRetailSel jsOr
      have hm : nps.getD 2 "" ∈ nps := by
        rw [List.getD_eq_getElem _ _ (by omega)]
        exact List.getElem_mem _
      rw [if_neg (h _ hm)]
  · intro lines i seen it n h
    exact (s3Body_emit lines i seen it n h).2
  · intro lines i seen it n h
    exact (s4Body_emit lines i seen it n h).2

def c10Doc : String := "SKU MFG STYLE\n11111111\n$1.00\n22222222 Foo $1.00 $2.00 $3.00 2 3 6"

/-- Counterexample for C10 as stated: the Strategy 3 row parses three
prices ($1.00, $2.00, $3.00; the third became retail), yet the emitted item
carries no comp value, where the claim requires comp to be the second price
$2.00. -/
theorem c10_comp_counterexample :
    (parseSkuTable c10Doc).map (fun it => (it.sku, it.costUnit, it.comp, it.retail)) =
      [("11111111", "$1.00", "", ""), ("22222222", "$1.00", "", "$3.00")] := by
  rfl

def c10Item : Item :=
  { sku := "22222222", mfgStyle := "Foo", mfgColor := "", sizeDesc := ""
    descText := "", costUnit := "$1.00", comp := "", retail := "$3.00"
    packQty := "2", qty := "6", upc := "" }

/-- Witness for C10 at concrete price lists and a concrete Strategy 3 row. -/
theorem c10_price_assignment_amended_witness :
    (priceCostSel ["$1.00", "$2.00"] = ["$1.00", "$2.00"].getD 0 "" ∧
      priceRetailSel ["$1.00", "$2.00"] = ["$1.00", "$2.00"].getD 1 "") ∧
    priceRetailSel ["$1.00", "$2.00", "$3.00"] = ["$1.00", "$2.00", "$3.00"].getD 2 "" ∧
    c10Item.comp = "" := by
  have ha := c10_price_assignment_amended.1 ["$1.00", "$2.00"] (by decide)
  have hb := c10_price_assignment_amended.1 ["$1.00", "$2.00", "$3.00"] (by decide)
  have hc := c10_price_assignment_amended.2.1
    ["x", "22222222 Foo $1.00 $2.00 $3.00 2 3 6"] 1 [] c10Item 2 (by decide)
  exact ⟨⟨ha.1, ha.2.1 (by decide)⟩, hb.2.2 (by decide), hc⟩

/-! ### C1: the stacked round trip -/

theorem splitNlAux_break : ∀ (a cur b : List Char), (∀ c ∈ a, c ≠ '\n') →
    splitNlAux (a ++ '\n' :: b) cur = String.mk (cur.reverse ++ a) :: splitNlAux b []
  | [], cur, b, _ => by simp [splitNlAux]
  | c :: rest, cur, b, hh => by
    have hc : c ≠ '\n' := hh c (by simp)
    simp only [List.cons_append, splitNlAux, if_neg hc, List.append_eq]
    rw [splitNlAux_break rest (c :: cur) b (fun x hx => hh x (by simp [hx]))]
    simp

def c1TailText : String :=
  "12345678\nRedStyle\nRed\n10X8\nWidget\n$5.00\n$7.00\n$10.00\n2\n3\n4"

def c1Tail : String := "\n" ++ c1TailText

def c1TailLines : List String :=
  ["12345678", "RedStyle", "Red", "10X8", "Widget", "$5.00", "$7.00", "$10.00", "2", "3", "4"]

def c1Item : Item :=
  { sku := "12345678", mfgStyle := "RedStyle", mfgColor := "Red", sizeDesc := "10X8"
    descText := "Widget", costUnit := "$5.00", comp := "$7.00", retail := "$10.00"
    packQty := "2", qty := "4", upc := "" }

theorem linesOf_c1 (h : String) (hnl : h.data.contains '\n' = false) :
    linesOf (h ++ c1Tail) = h.jsTrim :: c1TailLines := by
  have hnm : ¬('\n' ∈ h.data) := by simpa using hnl
  have hne : ∀ c ∈ h.data, c ≠ '\n' := by
    intro c hc he
    subst he
    exact hnm hc
  have hdata : (h ++ c1Tail).data = h.data ++ '\n' :: c1TailText.data := by
    show h.data ++ c1Tail.data = _
    congr 1
  unfold linesOf splitNl
  rw [hdata, splitNlAux_break h.data [] c1TailText.data hne]
  show (String.mk h.data).jsTrim :: (splitNl c1TailText).map String.jsTrim = _
  rfl

set_option maxHeartbeats 1000000 in
/-- C1: a text of one valid header line (containing SKU, with MFG and STYLE
in its six-line window) directly followed by the eleven stacked lines
produces exactly the single expected item. -/
theorem c1_stacked_roundtrip (h : String)
    (hnl : h.data.contains '\n' = false)
    (hdr : headerCondList (h.jsTrim :: c1TailLines) = true) :
    parseSkuTable (h ++ c1Tail) = [c1Item] := by
  unfold parseSkuTable
  rw [linesOf_c1 h hnl]
  unfold parseFromLines
  have hidx : findHeaderIdx (h.jsTrim :: c1TailLines) = some 0 := by
    unfold findHeaderIdx
    rw [findHeaderIdxAux, if_pos hdr]
  rw [hidx]
  have hf : (s1Inner (h.jsTrim :: c1TailLines) 13 2 0 {} [] []).fields
      = { style := "RedStyle", color := "Red", size := "10X8", descr := "Widget" } := rfl
  have hp : (s1Inner (h.jsTrim :: c1TailLines) 13 2 0 {} [] []).prices
      = ["$5.00", "$7.00", "$10.00"] := rfl
  have hq : (s1Inner (h.jsTrim :: c1TailLines) 13 2 0 {} [] []).qtys = [2, 3, 4] := rfl
  have hloop : s1Loop (h.jsTrim :: c1TailLines) 13 1
      = [s1Assign "12345678" (s1Inner (h.jsTrim :: c1TailLines) 13 2 0 {} [] []).fields
          (s1Inner (h.jsTrim :: c1TailLines) 13 2 0 {} [] []).prices
          (s1Inner (h.jsTrim :: c1TailLines) 13 2 0 {} [] []).qtys] := rfl
  rw [hf, hp, hq] at hloop
  have hasn : s1Assign "12345678"
      { style := "RedStyle", color := "Red", size := "10X8", descr := "Widget" }
      ["$5.00", "$7.00", "$10.00"] [2, 3, 4] = c1Item := rfl
  rw [hasn] at hloop
  have hrun : s1Run (h.jsTrim :: c1TailLines) 0 = [c1Item] := by
    unfold s1Run
    have hffs : findFirstSku (h.jsTrim :: c1TailLines) 0 = some 1 := rfl
    rw [hffs]
    exact hloop
  simp only [hrun]
  rfl

/-- Witness for C1 at the concrete header SKU MFG STYLE. -/
theorem c1_stacked_roundtrip_witness :
    parseSkuTable ("SKU MFG STYLE" ++ c1Tail) = [c1Item] :=
  c1_stacked_roundtrip "SKU MFG STYLE" (by decide) (by decide)

/-- Witness for C6 on a concrete document with a nonempty output. -/
theorem c6_post_filter_witness :
    (startsWithCI c6Item.mfgStyle.jsTrim "units" = false ∧
      allDigits c6Item.mfgStyle.jsTrim = false ∧
      (c6Item.costUnit.jsTrim ≠ "" ∨ c6Item.qty ≠ "")) ∧
    c6BadItem ∉ parseSkuTable c6Doc := by
  exact ⟨c6_post_filter.1 c6Doc c6Item (by decide), c6_post_filter.2 c6Doc c6BadItem (by decide)⟩

/-! ### Support lemmas for the merge claims -/

theorem findRec_append (l1 l2 : MState) (k : String) :
    findRec (l1 ++ l2) k =
      match findRec l1 k with | some v => some v | none => findRec l2 k := by
  induction l1 with
  | nil => rfl
  | cons p rest ih =>
    obtain ⟨a, b⟩ := p
    by_cases h : a = k
    · simp [findRec, h]
    · simp [findRec, h, ih]

theorem findRec_replaceRec_ne (l : MState) (key k : String) (v : MergedRec)
    (h : key ≠ k) : findRec (replaceRec l key v) k = findRec l k := by
  induction l with
  | nil => simp [replaceRec, findRec, h]
  | cons p rest ih =>
    obtain ⟨a, b⟩ := p
    by_cases ha : a = key
    · subst ha
      simp [replaceRec, findRec, h, ih]
    · simp only [replaceRec, if_neg ha]
      by_cases hk2 : a = k
      · simp [findRec, hk2]
      · simp [findRec, hk2, ih]

theorem findRec_replaceRec_eq (l : MState) (key : String) (v : MergedRec)
    (h : (findRec l key).isSome = true) : findRec (replaceRec l key v) key = some v := by
  induction l with
  | nil => simp [findRec] at h
  | cons p rest ih =>
    obtain ⟨a, b⟩ := p
    by_cases ha : a = key
    · simp [replaceRec, ha, findRec]
    · simp only [findRec, if_neg ha] at h
      simp [replaceRec, ha, findRec, ih h]

theorem lookupCell_setCell_eq (l : List (String × Option Nat)) (key : String)
    (v : Option Nat) : lookupCell (setCell l key v) key = some v := by
  induction l with
  | nil => simp [setCell, lookupCell]
  | cons p rest ih =>
    obtain ⟨a, b⟩ := p
    by_cases ha : a = key
    · simp [setCell, ha, lookupCell]
    · simp [setCell, ha, lookupCell, ih]

theorem lookupCell_setCell_ne (l : List (String × Option Nat)) (key k : String)
    (v : Option Nat) (h : k ≠ key) :
    lookupCell (setCell l key v) k = lookupCell l k := by
  induction l with
  | nil => simp [setCell, lookupCell, Ne.symm h]
  | cons p rest ih =>
    obtain ⟨a, b⟩ := p
    by_cases ha : a = key
    · subst ha
      simp [setCell, lookupCell, Ne.symm h, ih]
    · simp only [setCell, if_neg ha]
      by_cases hk2 : a = k
      · simp [lookupCell, hk2]
      · simp [lookupCell, hk2, ih]

theorem digit_not_ws (c : Char) (h : c.isDigit = true) : isWsChar c = false := by
  revert h
  rw [Char.isDigit]
  simp only [isWsChar]
  intro h
  by_contra hw
  simp only [Bool.not_eq_false, Bool.or_eq_true, decide_eq_true_eq] at hw
  rcases hw with ((((h1 | h1) | h1) | h1) | h1) | h1 <;> subst h1 <;> simp_all

theorem qtyNum_wf (r : MRecord) (hw : qtyWFB r = true) :
    qtyNum r = some (qtyValWF r) := by
  unfold qtyValWF
  by_cases hq : r.qty = ""
  · simp [qtyNum, hq]
  · have hd : r.qty.data ≠ [] ∧ r.qty.data.all Char.isDigit = true := by
      simp only [qtyWFB, Bool.or_eq_true, Bool.and_eq_true, decide_eq_true_eq] at hw
      rcases hw with h | ⟨h1, h2⟩
      · exact absurd h hq
      · exact ⟨by simpa using h1, h2⟩
    have hdw : r.qty.data.dropWhile isWsChar = r.qty.data := by
      cases hc : r.qty.data with
      | nil => rfl
      | cons c rest =>
        have hcd : c.isDigit = true := by
          have := hd.2
          rw [hc] at this
          simp only [List.all_cons, Bool.and_eq_true] at this
          exact this.1
        simp [List.dropWhile, digit_not_ws c hcd]
    have htw : r.qty.data.takeWhile Char.isDigit = r.qty.data :=
      List.takeWhile_eq_self_iff.mpr (by simpa [List.all_eq_true] using hd.2)
    have : jsParseInt r.qty = some (digitsVal r.qty.data) := by
      unfold jsParseInt
      rw [hdw, htw]
      simp [hd.1]
    simp [qtyNum, hq, this]

theorem mergeM3_poQty (st : MState) (r : MRecord) :
    (mergeM3 st r).poQty =
      if r.po = "" then (mergeM0 st r).poQty
      else
        setCell (mergeM0 st r).poQty r.po
          (match qtyNum r with
           | some q => some ((match lookupCell (mergeM0 st r).poQty r.po with
               | some (some n) => n | _ => 0) + q)
           | none => none) := by
  simp only [mergeM3]
  by_cases hpo : r.po = "" <;>
    by_cases h1 : (match (mergeM0 st r).packQty with | none => true | some n => n = 0) <;>
      by_cases h2 : 0 < packNum r <;>
        simp [h1, h2, hpo] <;>
          first
            | rfl
            | simp [apply_ite MergedRec.poQty]

theorem findRec_mergeStep_ne (st : MState) (r : MRecord) (k : String)
    (hk : mrKey r ≠ k) : findRec (mergeStep st r) k = findRec st k := by
  unfold mergeStep
  split
  · exact findRec_replaceRec_ne st (mrKey r) k _ hk
  · rw [findRec_append]
    cases hf : findRec st k with
    | some v => rfl
    | none => simp [findRec, hk]

theorem findRec_mergeStep_eq (st : MState) (r : MRecord) :
    findRec (mergeStep st r) (mrKey r) = some (mergeM3 st r) := by
  unfold mergeStep
  split
  · exact findRec_replaceRec_eq st (mrKey r) _ (by assumption)
  · rw [findRec_append]
    have hn : findRec st (mrKey r) = none := by
      cases hf : findRec st (mrKey r) with
      | none => rfl
      | some m => simp_all
    simp [hn, findRec]

theorem mergeStep_poVal (st : MState) (r : MRecord) (k po : String)
    (hw : qtyWFB r = true) :
    poVal (mergeStep st r) k po
      = poVal st k po + (if matchKeyPo r k po = true then qtyValWF r else 0) := by
  by_cases hk : mrKey r = k
  · subst hk
    have h1 := findRec_mergeStep_eq st r
    have hqn := qtyNum_wf r hw
    have hmq := mergeM3_poQty st r
    rw [hqn] at hmq
    by_cases hpo : r.po = ""
    · have hm : matchKeyPo r (mrKey r) po = false := by simp [matchKeyPo, hpo]
      rw [if_neg (by simp [hm])]
      simp only [poVal, h1, hmq, if_pos hpo]
      cases hf : findRec st (mrKey r) with
      | none => simp [mergeM0, hf, lookupCell]
      | some m => simp [mergeM0, hf]
    · by_cases hpp : r.po = po
      · subst hpp
        have hm : matchKeyPo r (mrKey r) r.po = true := by simp [matchKeyPo, hpo]
        rw [if_pos (by simp [hm])]
        simp only [poVal, h1, hmq, if_neg hpo, lookupCell_setCell_eq]
        cases hf : findRec st (mrKey r) with
        | none => simp [mergeM0, hf, lookupCell]
        | some m => simp [mergeM0, hf]
      · have hm : matchKeyPo r (mrKey r) po = false := by simp [matchKeyPo, hpp]
        rw [if_neg (by simp [hm])]
        simp only [poVal, h1, hmq, if_neg hpo,
          lookupCell_setCell_ne _ _ _ _ (fun he => hpp he.symm)]
        cases hf : findRec st (mrKey r) with
        | none => simp [mergeM0, hf, lookupCell]
        | some m => simp [mergeM0, hf]
  · have hm : matchKeyPo r k po = false := by simp [matchKeyPo, hk]
    rw [if_neg (by simp [hm])]
    simp only [poVal, findRec_mergeStep_ne st r k hk, Nat.add_zero]

theorem poSumSpec_cons (r : MRecord) (rs : List MRecord) (k po : String) :
    poSumSpec (r :: rs) k po
      = (if matchKeyPo r k po = true then qtyValWF r else 0) + poSumSpec rs k po := by
  simp [poSumSpec]

theorem mergeFold_poVal_aux : ∀ (rs : List MRecord) (st : MState) (k po : String),
    (∀ r ∈ rs, qtyWFB r = true) →
    poVal (rs.foldl mergeStep st) k po = poVal st k po + poSumSpec rs k po
  | [], st, k, po, _ => by simp [poSumSpec]
  | r :: rs, st, k, po, h => by
    have hr : qtyWFB r = true := h r (by simp)
    have ih := mergeFold_poVal_aux rs (mergeStep st r) k po
      (fun x hx => h x (by simp [hx]))
    simp only [List.foldl_cons]
    rw [ih, mergeStep_poVal st r k po hr, poSumSpec_cons]
    omega

theorem poSumSpec_append (A B : List MRecord) (k po : String) :
    poSumSpec (A ++ B) k po = poSumSpec A k po + poSumSpec B k po := by
  simp [poSumSpec]

def c2A : List MRecord :=
  [{ sku := "99999999", mfgStyle := "X", cost := "$1.00", retail := "$2.00"
     packQty := "1", qty := "10", po := "1001", src := "a.pdf" }]

def c2B : List MRecord :=
  [{ sku := "99999999", mfgStyle := "X", cost := "$3.00", retail := "$4.00"
     packQty := "2", qty := "5", po := "1001", src := "b.pdf" }]

/-- C2 (amended): when every record carries a well-formed quantity string
(empty or all digits), folding
the records of document list A and then B gives, at every key and PO
number, the same summed quantity as folding B and then A; and the two
concrete one-record documents for SKU 99999999, style X, PO 1001 with
quantities 10 and 5 merge to a single record whose PO 1001 quantity is
15. -/
theorem c2_merge_po_qty_commutes :
    (∀ (A B : List MRecord) (k po : String),
        (∀ r ∈ A ++ B, qtyWFB r = true) →
        poVal (mergeFold (A ++ B)) k po = poVal (mergeFold (B ++ A)) k po) ∧
    (mergeFold (c2A ++ c2B)).length = 1 ∧
    poVal (mergeFold (c2A ++ c2B)) "99999999|X" "1001" = 15 := by
  refine ⟨?_, by decide, by decide⟩
  intro A B k po h
  have hAB : ∀ r ∈ B ++ A, qtyWFB r = true := by
    intro x hx
    refine h x ?_
    simp only [List.mem_append] at hx ⊢
    tauto
  unfold mergeFold
  rw [mergeFold_poVal_aux (A ++ B) [] k po h,
    mergeFold_poVal_aux (B ++ A) [] k po hAB,
    poSumSpec_append, poSumSpec_append]
  omega

def c2DocA : BatchDoc :=
  { fails := false, text := "SKU MFG STYLE\n12345678 Foo $1.00 a b c"
    po := "1001", src := "a.pdf" }

def c2DocB : BatchDoc :=
  { fails := false, text := "SKU MFG STYLE\n12345678 Foo $1.00 2 2 5"
    po := "1001", src := "b.pdf" }

/-- Counterexample for C2 as stated: the first document parses to a record
whose quantity string is the letter c, whose parseInt is NaN; merging it
before the quantity-5 document leaves a reset cell that then sums to 5,
while merging it after overwrites the cell with NaN, read back as blank.
The summed per-PO quantity is therefore order-dependent. -/
theorem c2_po_qty_order_counterexample :
    poVal (mergeFold (docRecords c2DocA ++ docRecords c2DocB)) "12345678|Foo" "1001" = 5 ∧
    poVal (mergeFold (docRecords c2DocB ++ docRecords c2DocA)) "12345678|Foo" "1001" = 0 := by
  constructor
  · decide
  · decide

/-- Witness for C2 at the two concrete one-record documents. -/
theorem c2_merge_po_qty_commutes_witness :
    poVal (mergeFold (c2A ++ c2B)) "99999999|X" "1001"
      = poVal (mergeFold (c2B ++ c2A)) "99999999|X" "1001" :=
  c2_merge_po_qty_commutes.1 c2A c2B "99999999|X" "1001" (by decide)

/-! ### C3: first-write-wins in the merge -/

theorem mergeM3_cost (st : MState) (r : MRecord) :
    (mergeM3 st r).cost = (mergeM0 st r).cost := by
  simp only [mergeM3]
  by_cases hpo : r.po = "" <;>
    by_cases h1 : (match (mergeM0 st r).packQty with | none => true | some n => n = 0) <;>
      by_cases h2 : 0 < packNum r <;>
        simp [h1, h2, hpo] <;>
          first
            | rfl
            | simp [apply_ite MergedRec.cost]

theorem mergeM3_retail (st : MState) (r : MRecord) :
    (mergeM3 st r).retail = (mergeM0 st r).retail := by
  simp only [mergeM3]
  by_cases hpo : r.po = "" <;>
    by_cases h1 : (match (mergeM0 st r).packQty with | none => true | some n => n = 0) <;>
      by_cases h2 : 0 < packNum r <;>
        simp [h1, h2, hpo] <;>
          first
            | rfl
            | simp [apply_ite MergedRec.retail]

theorem mergeM3_packQty (st : MState) (r : MRecord) :
    (mergeM3 st r).packQty =
      if (mergeM0 st r).packQty.getD 0 = 0 ∧ 0 < packNum r then some (packNum r)
      else (mergeM0 st r).packQty := by
  simp only [mergeM3]
  cases hp : (mergeM0 st r).packQty with
  | none =>
    by_cases h2 : 0 < packNum r <;>
      by_cases hpo : r.po = "" <;>
        simp [hp, h2, hpo] <;>
          first
            | rfl
            | simp [apply_ite MergedRec.packQty, hp]
  | some n =>
    by_cases h0 : n = 0 <;>
      by_cases h2 : 0 < packNum r <;>
        by_cases hpo : r.po = "" <;>
          simp [hp, h0, h2, hpo] <;>
            first
              | rfl
              | simp [apply_ite MergedRec.packQty, hp, h0]

/-- C3 (amended): once a key is present in the merge state, a later record
of the same key never changes the stored cost or retail; only the pack
quantity is overwritten, exactly when the stored value is unset or zero
and the incoming pack number is positive. -/
theorem c3_first_write_amended (st : MState) (r : MRecord) (m : MergedRec)
    (h : findRec st (mrKey r) = some m) :
    findRec (mergeStep st r) (mrKey r) = some (mergeM3 st r) ∧
    (mergeM3 st r).cost = m.cost ∧
    (mergeM3 st r).retail = m.retail ∧
    (mergeM3 st r).packQty =
      (if m.packQty.getD 0 = 0 ∧ 0 < packNum r then some (packNum r)
       else m.packQty) := by
  have hm0 : mergeM0 st r = m := by simp [mergeM0, h]
  refine ⟨findRec_mergeStep_eq st r, ?_, ?_, ?_⟩
  · rw [mergeM3_cost, hm0]
  · rw [mergeM3_retail, hm0]
  · rw [mergeM3_packQty, hm0]

def c3r1 : MRecord :=
  { sku := "11111111", mfgStyle := "S", cost := "", retail := ""
    packQty := "", qty := "1", po := "1001", src := "a.pdf" }

def c3r2 : MRecord :=
  { sku := "11111111", mfgStyle := "S", cost := "$5.00", retail := "$6.00"
    packQty := "3", qty := "2", po := "1001", src := "b.pdf" }

/-- Counterexample for C3 as stated: with an empty stored cost and retail
and a nonempty incoming value, the merge keeps the empty cost and retail,
while the pack quantity alone is overwritten. -/
theorem c3_counterexample :
    (findRec (mergeFold [c3r1, c3r2]) "11111111|S").map
      (fun m => (m.cost, m.retail, m.packQty)) = some ("", "", some 3) := by decide

def c3m : MergedRec :=
  { sku := "11111111", style := "S", cost := "", retail := ""
    packQty := none, poQty := [("1001", some 1)], files := ["a.pdf"] }

/-- Witness for C3 at the concrete one-record state of the counterexample
documents. -/
theorem c3_first_write_amended_witness :
    findRec (mergeStep (mergeFold [c3r1]) c3r2) (mrKey c3r2)
        = some (mergeM3 (mergeFold [c3r1]) c3r2) ∧
    (mergeM3 (mergeFold [c3r1]) c3r2).cost = c3m.cost ∧
    (mergeM3 (mergeFold [c3r1]) c3r2).retail = c3m.retail ∧
    (mergeM3 (mergeFold [c3r1]) c3r2).packQty =
      (if c3m.packQty.getD 0 = 0 ∧ 0 < packNum c3r2 then some (packNum c3r2)
       else c3m.packQty) :=
  c3_first_write_amended (mergeFold [c3r1]) c3r2 c3m (by decide)

/-! ### C9: per-document error isolation and the batch-empty error -/

/-- C9: a document whose processing throws contributes no records and
leaves the contribution of every other document unchanged, and the batch
conversion raises its error exactly when the collected record list over
all documents is empty. -/
theorem c9_batch_error_handling :
    (∀ (pre post : List BatchDoc) (d : BatchDoc), d.fails = true →
        allRecords (pre ++ d :: post) = allRecords (pre ++ post)) ∧
    (∀ docs : List BatchDoc,
        processBatch docs
            = .error "No data extracted from any PDF. Check browser console for details."
          ↔ allRecords docs = []) := by
  constructor
  · intro pre post d hd
    simp [allRecords, docRecords, hd]
  · intro docs
    unfold processBatch
    by_cases he : (allRecords docs).isEmpty
    · simp [he, List.isEmpty_iff.mp he]
    · have : allRecords docs ≠ [] := by
        intro h0
        exact he (by simp [h0])
      simp [he, this]

def c9FailDoc : BatchDoc := { fails := true, text := "x", po := "1", src := "a" }

def c9GoodDoc : BatchDoc := { fails := false, text := "x", po := "1", src := "b" }

/-- Witness for C9: dropping a failing document from a concrete batch, and
the error on a batch whose only document fails. -/
theorem c9_batch_error_handling_witness :
    allRecords ([c9GoodDoc] ++ c9FailDoc :: []) = allRecords ([c9GoodDoc] ++ []) ∧
    processBatch [c9FailDoc]
      = .error "No data extracted from any PDF. Check browser console for details." :=
  ⟨c9_batch_error_handling.1 [c9GoodDoc] [] c9FailDoc rfl,
   (c9_batch_error_handling.2 [c9FailDoc]).2 (by decide)⟩

end TK
